import Mathlib

/-!
Formal model of the AbletonBridge connection layer.

This file embeds the connection layer of the AbletonBridge repository in
Lean 4 and proves the specified properties about it:

* `MCP_Server/connections/ableton.py` — `AbletonConnection.connect`,
  `AbletonConnection.receive_full_response`, `AbletonConnection.send_command`
  and the module-level `get_ableton_connection`;
* `MCP_Server/constants.py` — the tier tables and `MODIFYING_COMMANDS`;
* the OSC framing and chunk reassembly of the M4L control channel, which are
  modelled from the specification (see the doc comments of those definitions).

Modelling conventions:

* Durations are natural numbers of milliseconds (Python `0.3` ↦ `300`,
  `15.0` ↦ `15000`, …).
* Python `frozenset`s of command names become `List String`; membership is
  the only operation the source performs on them.
* JSON values are the inductive `Json` below; Python `json.loads` and the
  base64 codec are standard-library code, so they enter the model as
  explicit function parameters where the source calls them.
* The network is an oracle (`Env`): a list of answers for successive
  `connect()` calls and a list of outcomes for successive receive calls.
  An exhausted receive oracle behaves as a receive timeout and an exhausted
  connect oracle as a failed connect.  Transport failures are injected at
  the receive step; in the source every failure inside the `try` block of
  `send_command` funnels through the same `except` handler.
* Side effects that the claims talk about (socket writes, sleeps, connect
  calls, the receive timeout installed on the socket) are recorded in an
  effect trace `List Eff`.
-/

namespace AbletonBridge

/-- JSON values as produced by `json.loads`.  Numeric payloads play no role
in any claim, so numbers are carried as `Int`. -/
inductive Json where
  | null
  | bool (b : Bool)
  | num (n : Int)
  | str (s : String)
  | arr (xs : List Json)
  | obj (kvs : List (String × Json))

/-- Python `dict.get(k)` on a JSON object: the value stored under the first
matching key, `none` when the key is absent or the value is not an object. -/
def jget : Json → String → Option Json
  | .obj kvs, k => (kvs.find? (fun p => p.1 == k)).map (fun p => p.2)
  | _, _ => none

/-- The single-quote character, used by the f-string in `send_command`'s
final error message. -/
def quoteMark : String := String.singleton (Char.ofNat 39)

/-- Python `str()` applied to a JSON value, as used when a non-string value
ends up inside an `Exception`.  The wire protocol's `message` field is a
string, so only the `str` case (where `str(s) = s`) is ever exercised by the
protocol; the container cases are summarised by fixed placeholders. -/
def pyStr : Json → String
  | .null => "None"
  | .bool true => "True"
  | .bool false => "False"
  | .num n => toString n
  | .str s => s
  | .arr _ => "<list>"
  | .obj _ => "<dict>"

/-- The test `response.get("status") == "error"` from `send_command`
(ableton.py line 185). -/
def statusIsError (r : Json) : Bool :=
  match jget r "status" with
  | some (.str s) => s == "error"
  | _ => false

/-- The message of the remote-error exception:
`response.get("message", "Unknown error from Ableton")` rendered by `str`
(ableton.py line 187). -/
def remoteMsg (r : Json) : String :=
  match jget r "message" with
  | some v => pyStr v
  | none => "Unknown error from Ableton"

/-- The set `NON_IDEMPOTENT_COMMANDS` from ableton.py (lines 18-24). -/
def NON_IDEMPOTENT_COMMANDS : List String :=
  [ "create_midi_track", "create_audio_track", "create_clip",
    "create_return_track", "create_scene", "delete_track",
    "delete_clip", "delete_scene", "delete_device",
    "duplicate_track", "duplicate_clip", "add_notes_to_clip",
    "add_notes_extended", "delete_return_track" ]

/-- The set `TIER_0_COMMANDS` from constants.py (lines 19-39). -/
def TIER_0_COMMANDS : List String :=
  [ "set_tempo", "set_track_name", "set_clip_name", "set_track_color",
    "set_clip_color", "set_track_mute", "set_track_solo", "set_track_arm",
    "set_metronome", "set_track_pan", "set_track_volume",
    "set_return_track_volume", "set_return_track_pan", "set_track_send",
    "set_master_volume", "start_playback", "stop_playback",
    "undo", "redo", "set_song_time", "set_song_loop",
    "set_clip_looping", "set_device_parameter", "set_device_enabled",
    "fire_clip", "stop_clip", "fire_scene",
    "select_scene", "select_track", "set_detail_clip",
    "set_track_fold", "set_crossfade_assign",
    "set_track_monitoring", "set_clip_launch_mode",
    "set_clip_launch_quantization", "set_clip_legato",
    "set_scene_name", "set_scene_tempo", "tap_tempo",
    "set_arrangement_overdub", "set_track_routing", "navigate_playback",
    "set_clip_pitch", "set_groove_settings", "set_song_settings",
    "trigger_session_record", "set_or_delete_cue", "jump_to_cue",
    "preview_browser_item", "move_clip_playing_pos",
    "set_transmute_properties", "rack_variation_action",
    "set_return_track_mute", "set_return_track_solo", "set_clip_grid" ]

/-- The set `TIER_1_COMMANDS` from constants.py (lines 42-54). -/
def TIER_1_COMMANDS : List String :=
  [ "add_notes_to_clip", "add_notes_extended", "remove_notes_range",
    "clear_clip_notes", "quantize_clip_notes", "transpose_clip_notes",
    "set_clip_loop_points", "set_clip_start_end",
    "create_clip_automation", "clear_clip_automation",
    "create_track_automation", "clear_track_automation",
    "duplicate_clip", "duplicate_clip_loop", "duplicate_clip_region",
    "crop_clip", "reverse_clip", "set_clip_warp", "set_warp_mode",
    "apply_groove", "set_drum_pad", "copy_drum_pad", "capture_midi",
    "set_compressor_sidechain", "set_eq8_properties",
    "set_simpler_properties", "simpler_sample_action", "manage_sample_slices",
    "set_hybrid_reverb_ir", "duplicate_clip_to_arrangement" ]

/-- The set `TIER_2_COMMANDS` from constants.py (lines 57-69). -/
def TIER_2_COMMANDS : List String :=
  [ "create_midi_track", "create_audio_track", "create_clip",
    "delete_clip", "delete_track", "duplicate_track",
    "create_return_track", "create_scene", "delete_scene",
    "load_instrument_or_effect", "load_sample", "load_drum_kit",
    "group_tracks", "freeze_track", "unfreeze_track",
    "audio_to_midi", "create_midi_track_with_simpler",
    "sliced_simpler_to_drum_rack", "delete_device",
    "delete_time", "duplicate_time", "insert_silence",
    "arm_track", "disarm_track",
    "start_arrangement_recording", "stop_arrangement_recording",
    "set_loop_start", "set_loop_end", "set_loop_length",
    "set_playback_position" ]

/-- The set `MODIFYING_COMMANDS` from constants.py (line 72): the union of the three
tier tables (list concatenation; only membership is ever used). -/
def MODIFYING_COMMANDS : List String :=
  TIER_0_COMMANDS ++ TIER_1_COMMANDS ++ TIER_2_COMMANDS

/-- Connection state of an `AbletonConnection`: whether `self.sock` is a live
socket (`true`) or `None` (`false`), and the contents of `self._recv_buffer`. -/
structure Conn where
  sock : Bool
  buf : String

/-- Observable side effects of the connection layer. -/
inductive Eff where
  /-- One socket write of the serialized command (`self.sock.sendall`). -/
  | send (commandType : String) (params : Json)
  /-- A `time.sleep` of the given number of milliseconds. -/
  | sleep (ms : Nat)
  /-- a call to `self.connect()`. -/
  | connectCall
  /-- the timeout (ms) handed to `receive_full_response`, i.e. installed on
  the socket before the read. -/
  | setRecvTimeout (ms : Nat)

/-- Outcome of one call to `receive_full_response` as seen by
`send_command`: either a transport-level failure (timeout, reset, closed
connection, JSON decode failure — all of which propagate as exceptions) or a
parsed JSON response. -/
inductive RecvOutcome where
  | fail (e : String)
  | ok (r : Json)

/-- The network oracle: answers for successive `connect()` calls and
outcomes for successive receive calls. -/
structure Env where
  connects : List Bool
  recvs : List RecvOutcome

/-- Exceptions raised by the connection layer: `ConnectionError(msg)` or a
plain `Exception(msg)`. -/
inductive PyErr where
  | connErr (msg : String)
  | exc (msg : String)

/-- Model of `AbletonConnection.connect` (ableton.py lines 35-55): returns
`True` immediately if a socket exists; otherwise the oracle decides.  On
success the receive buffer is cleared (line 44); on failure `self.sock`
is `None`. -/
def connectStep (c : Conn) (env : Env) : Bool × Conn × Env :=
  if c.sock then (true, c, env)
  else
    match env.connects with
    | [] => (false, { c with sock := false }, env)
    | b :: rest =>
        (b, { sock := b, buf := if b then "" else c.buf },
          { env with connects := rest })

/-- Model of one call to `receive_full_response` inside `send_command`,
drawing the next outcome from the oracle. -/
def recvStep (env : Env) : RecvOutcome × Env :=
  match env.recvs with
  | [] => (.fail "timed out", env)
  | o :: rest => (o, { env with recvs := rest })

/-- Trace fragment of `if delay: time.sleep(delay)`. -/
def tierTrace (delay : Nat) : List Eff :=
  if delay = 0 then [] else [Eff.sleep delay]

/-- The f-string of the final raise in `send_command` (ableton.py line 208). -/
def failAfterMsg (commandType : String) (maxAttempts : Nat) (e : String) : String :=
  "Command " ++ quoteMark ++ commandType ++ quoteMark ++ " failed after "
    ++ toString maxAttempts ++ " attempts: " ++ e

/-- Model of `if not self.sock and not self.connect()` (ableton.py line 160): ensure
a socket exists, calling `connect()` only when there is none, and record the
call in the trace. -/
def ensureSock (c : Conn) (env : Env) : Bool × Conn × Env × List Eff :=
  if c.sock then (true, c, env, [])
  else
    match connectStep c env with
    | (b, c', env') => (b, c', env', [Eff.connectCall])

/-- Whether a JSON value is an object (a Python `dict`). -/
def isObj : Json → Bool
  | .obj _ => true
  | _ => false

/-- The body of one `send_command` attempt after the read (ableton.py lines
182-193), classifying the outcome: a transport failure propagates; a
well-formed response with status `"error"` raises with the remote message
(line 187); a non-object response raises when `.get` is called on it; and a
successful response yields its `"result"` field (defaulting to the empty
object) together with the post-delay trace. -/
def attemptBody (o : RecvOutcome) (post : Nat) : Except String (Json × List Eff) :=
  match o with
  | .fail e => .error e
  | .ok (.obj kvs) =>
      if statusIsError (.obj kvs) then .error (remoteMsg (.obj kvs))
      else .ok ((jget (.obj kvs) "result").getD (.obj []), tierTrace post)
  | .ok _ => .error "response object has no attribute get"

/-- The retry loop of `AbletonConnection.send_command` (ableton.py lines
159-208).  `n + 1` is the number of attempts still allowed (the loop is
entered with `n + 1 = maxA`).  Each iteration: ensure a socket exists
(line 160, raising `ConnectionError` if `connect` fails), write the command
(line 172), sleep the pre-delay (line 176), resolve the effective timeout
(lines 179-180) and read.  On any failure the socket is torn down and the
buffer cleared (lines 198-199); with attempts remaining the loop sleeps
300 ms, reconnects (raising `ConnectionError` on failure) and retries;
otherwise it raises the wrapped failure of line 208. -/
def sendAttempts (ct : String) (params : Json) (pre post : Nat) (isMod : Bool)
    (maxA : Nat) :
    Nat → Option Nat → Conn → Env → Except PyErr Json × Conn × List Eff
  | 0, _, c, _ => (.error (.exc "attempt budget exhausted"), c, [])
  | n + 1, timeout, c, env =>
    match ensureSock c env with
    | (false, c1, _, tr0) =>
        (.error (.connErr "Not connected to Ableton"), c1, tr0)
    | (true, c1, env1, tr0) =>
        let t := timeout.getD (if isMod then 15000 else 10000)
        let tr1 := tr0 ++ [Eff.send ct params] ++ tierTrace pre
          ++ [Eff.setRecvTimeout t]
        match recvStep env1 with
        | (o, env2) =>
          match attemptBody o post with
          | .ok (v, trPost) => (.ok v, c1, tr1 ++ trPost)
          | .error e =>
            let c2 : Conn := { sock := false, buf := "" }
            if n = 0 then
              (.error (.exc (failAfterMsg ct maxA e)), c2, tr1)
            else
              match connectStep c2 env2 with
              | (false, c3, _) =>
                  (.error (.connErr "Failed to reconnect to Ableton"), c3,
                    tr1 ++ [Eff.sleep 300, Eff.connectCall])
              | (true, c3, env3) =>
                  match sendAttempts ct params pre post isMod maxA n (some t)
                      c3 env3 with
                  | (res, c4, tr4) =>
                      (res, c4, tr1 ++ [Eff.sleep 300, Eff.connectCall] ++ tr4)

/-- The computation `max_attempts = 1 if command_type in NON_IDEMPOTENT_COMMANDS else 2`
(ableton.py line 148). -/
def maxAttemptsFor (commandType : String) : Nat :=
  if commandType ∈ NON_IDEMPOTENT_COMMANDS then 1 else 2

/-- The pre-delay of the tier classification (ableton.py lines 152-157). -/
def preDelay (commandType : String) : Nat :=
  if commandType ∈ TIER_2_COMMANDS then 100 else 0

/-- The post-delay of the tier classification (ableton.py lines 152-157). -/
def postDelay (commandType : String) : Nat :=
  if commandType ∈ TIER_2_COMMANDS then 100
  else if commandType ∈ TIER_1_COMMANDS then 50
  else 0

/-- Model of `AbletonConnection.send_command` (ableton.py lines 137-208):
classify the command, then run the retry loop.  Returns the result or the
raised exception, the final connection state, and the effect trace. -/
def send_command (commandType : String) (params : Json) (timeout : Option Nat)
    (c : Conn) (env : Env) : Except PyErr Json × Conn × List Eff :=
  sendAttempts commandType params (preDelay commandType) (postDelay commandType)
    (decide (commandType ∈ MODIFYING_COMMANDS)) (maxAttemptsFor commandType)
    (maxAttemptsFor commandType) timeout c env

/-- Number of socket writes in a trace. -/
def countSends (tr : List Eff) : Nat :=
  tr.countP (fun e => match e with | .send _ _ => true | _ => false)

/-! ## The receive buffer (`receive_full_response`, ableton.py lines 97-128)

For this part the byte stream is modelled at character level: the buffer is
a `List Char` and each successful `sock.recv` yields a nonempty `List Char`
chunk (a `recv` that returns no data means the peer closed the connection,
which the source turns into an exception).  The incoming stream is the list
of chunks the socket will deliver; exhausting it means no further data
arrives before the timeout. -/

/-- Errors `receive_full_response` can propagate: a socket timeout, the
"Connection closed before receiving any data" exception raised on an empty
`recv`, and `json.JSONDecodeError` from `json.loads`. -/
inductive RecvError where
  | timeout
  | closed
  | decodeFailure
deriving DecidableEq

/-- Python default whitespace for `str.strip` (the ASCII part, which is all
that can occur around a JSON line). -/
def isPySpace (c : Char) : Bool :=
  c == ' ' || c == '\t' || c == '\n' || c == '\r'
    || c == Char.ofNat 11 || c == Char.ofNat 12

/-- Python `line.strip()`: drop whitespace from both ends. -/
def pstrip (l : List Char) : List Char :=
  ((l.dropWhile isPySpace).reverse.dropWhile isPySpace).reverse

/-- Model of `self._recv_buffer.split` at the first newline, guarded by the
check that the buffer holds a newline
(ableton.py lines 104-105): the segment before the first newline and
everything after it, or `none` when the buffer holds no newline. -/
def splitAtNl (l : List Char) : Option (List Char × List Char) :=
  let line := l.takeWhile (fun c => c != '\n')
  if line.length < l.length then some (line, l.drop (line.length + 1)) else none

/-- The buffer-draining steps of the `receive_full_response` loop
(ableton.py lines 102-110), parameterized by the standard-library JSON
codec `parse` (applied to the stripped line; `none` models a
`json.JSONDecodeError`): while the buffer holds a complete line, extract
it, strip it, and — when nonempty — parse it and return it with the
deferred remainder; a stripped-empty line is dropped and the scan
continues.  `none` means the buffer holds no complete nonempty line, so the
loop would fall through to `sock.recv`. -/
def scanBuffer (parse : List Char → Option Json) (buf : List Char) :
    Option (Except RecvError (Json × List Char)) :=
  match h : splitAtNl buf with
  | some (line, rest) =>
      if (pstrip line).length ≠ 0 then
        some (match parse (pstrip line) with
          | some j => .ok (j, rest)
          | none => .error .decodeFailure)
      else
        scanBuffer parse rest
  | none => none
termination_by buf.length
decreasing_by
  simp only [splitAtNl] at h
  split at h
  · cases h
    simp only [List.length_drop]
    omega
  · cases h

/-- Model of `AbletonConnection.receive_full_response` (ableton.py lines
97-128): drain the buffer first; if it holds no complete nonempty line,
pull the next chunk from the incoming stream — an empty chunk raises the
connection-closed exception, exhaustion of the stream is a socket timeout —
append it to the buffer and repeat.  Returns the parsed value, the deferred
buffer contents and the undelivered chunks. -/
def receive_full_response (parse : List Char → Option Json) :
    List Char → List (List Char) →
      Except RecvError (Json × List Char × List (List Char))
  | buf, chunks =>
    match scanBuffer parse buf with
    | some (.ok (j, rest)) => .ok (j, rest, chunks)
    | some (.error e) => .error e
    | none =>
        match chunks with
        | [] => .error .timeout
        | ch :: more =>
            if ch.length = 0 then .error .closed
            else receive_full_response parse (buf ++ ch) more

/-- The canonical line-extraction semantics on the flattened stream: the
first line whose stripped content is nonempty is parsed and returned with
everything after its newline; a stream without such a complete line times
out.  `receive_full_response` is proved to refine this function, which is
what makes its result independent of how the stream is cut into reads. -/
def linesResult (parse : List Char → Option Json) (s : List Char) :
    Except RecvError (Json × List Char) :=
  match h : splitAtNl s with
  | some (line, rest) =>
      if (pstrip line).length ≠ 0 then
        match parse (pstrip line) with
        | some j => .ok (j, rest)
        | none => .error .decodeFailure
      else
        linesResult parse rest
  | none => .error .timeout
termination_by s.length
decreasing_by
  simp only [splitAtNl] at h
  split at h
  · cases h
    simp only [List.length_drop]
    omega
  · cases h

/-- Forgets the split between the deferred buffer and the undelivered
chunks, flattening the leftover state of `receive_full_response` so it can
be compared with `linesResult`. -/
def flattenRes :
    Except RecvError (Json × List Char × List (List Char)) →
      Except RecvError (Json × List Char)
  | .ok (j, b, ch) => .ok (j, b ++ ch.flatten)
  | .error e => .error e

/-! ## The connection supervisor (`get_ableton_connection`, ableton.py
lines 211-270) -/

/-- Observable side effects of `get_ableton_connection`. -/
inductive SupEff where
  /-- construction of a fresh `AbletonConnection` plus its `connect()` call. -/
  | connectAttempt
  /-- the validation `send_command("get_session_info")` (line 244). -/
  | validate
  /-- A `time.sleep` of the given number of milliseconds. -/
  | sleep (ms : Nat)
deriving DecidableEq

/-- The bounded creation loop of `get_ableton_connection` (lines 232-263),
driven by the per-attempt oracle: each list entry is one attempt,
`(connect succeeded, validation command succeeded)`.  On `connect()`
returning true, the validation command is sent; if it also succeeds the
connection is returned.  Any failure falls through to the 1-second sleep,
which runs only when attempts remain.  An exhausted list is the final raise
of line 268. -/
def supLoop : List (Bool × Bool) → Except String Unit × List SupEff
  | [] =>
      (.error "Could not connect to Ableton. Make sure the Remote Script is running.", [])
  | (c, v) :: rest =>
      let tr := [SupEff.connectAttempt] ++ (if c then [SupEff.validate] else [])
      if c && v then (.ok (), tr)
      else
        match supLoop rest with
        | (res, tr') =>
            (res, tr ++ (if rest.length ≠ 0 then [SupEff.sleep 1000] else []) ++ tr')

/-- Model of `get_ableton_connection` (ableton.py lines 211-270).
`existingValid` describes the current `state.ableton_connection`: `none`
when no connection object exists, `some b` when one exists and the
`getpeername` liveness probe succeeds (`b = true`) or fails.  A valid
existing connection is returned as is; otherwise the invalid connection is
discarded and the creation loop runs with `max_attempts = 3` (line 233),
its per-attempt outcomes given by `a1`, `a2`, `a3`. -/
def get_ableton_connection (existingValid : Option Bool)
    (a1 a2 a3 : Bool × Bool) : Except String Unit × List SupEff :=
  match existingValid with
  | some true => (.ok (), [])
  | _ => supLoop [a1, a2, a3]

/-- Number of fresh-connection attempts in a supervisor trace. -/
def countConnects (tr : List SupEff) : Nat :=
  tr.countP (fun e => match e with | .connectAttempt => true | _ => false)

/-- Number of sleeps in a supervisor trace. -/
def countSupSleeps (tr : List SupEff) : Nat :=
  tr.countP (fun e => match e with | .sleep _ => true | _ => false)

/-! ## The control channel (M4L connection)

`MCP_Server/connections/m4l.py` (class `M4LConnection`) is not under `src/`;
only its unit tests (`src/tests/test_m4l.py`) and its package re-export are.
The OSC framing and the chunk reassembly below are therefore modelled from
the specification (§4.2 "Control Channel", §6 "Control Channel wire
format") and the shapes asserted by the tests, as noted on each
definition. -/

/-- Modelled from the spec: an argument of a control message — missing
source `M4LConnection._build_osc_message`.  Per §4.2 the argument list has
"string/int/float variants".  A string argument is carried as its encoded
bytes (each a `Nat < 256`, no NUL byte inside); an int argument is a signed
32-bit value packed big-endian (test_m4l.py checks `struct.pack(">i", 42)`
appears in the message); a float argument is carried as its 32-bit IEEE-754
bit pattern, which is exactly what the 4 wire bytes hold. -/
inductive OscArg where
  | s (bytes : List Nat)
  | i (v : Int)
  | f (bits : Nat)

/-- Number of NUL bytes appended after a string of length `n` on the wire:
at least one terminator, up to the next multiple of 4. -/
def padNulCount (n : Nat) : Nat := 4 - n % 4

/-- Modelled from the spec: an OSC string block, "length-prefixed"
by its NUL terminator and "padded so the total length is a multiple of
4 bytes" (§4.2). -/
def oscPadString (s : List Nat) : List Nat :=
  s ++ List.replicate (padNulCount s.length) 0

/-- Big-endian bytes of a 32-bit word. -/
def be32 (v : Nat) : List Nat :=
  [v / 16777216 % 256, v / 65536 % 256, v / 256 % 256, v % 256]

/-- Two's-complement 32-bit pattern of a signed int (`struct.pack(">i", v)`). -/
def int32bits (v : Int) : Nat := (v % (4294967296 : Int)).toNat

/-- The OSC type-tag byte of an argument: `s` = 115, `i` = 105, `f` = 102. -/
def tagOf : OscArg → Nat
  | .s _ => 115
  | .i _ => 105
  | .f _ => 102

/-- The wire block of a single argument. -/
def encodeArg : OscArg → List Nat
  | .s bytes => oscPadString bytes
  | .i v => be32 (int32bits v)
  | .f bits => be32 (bits % 4294967296)

/-- Modelled from the spec: `M4LConnection._build_osc_message` — missing
source.  Per §4.2: "a control message is an address string followed by a
type-tagged, length-prefixed argument list (string/int/float variants),
padded so the total length is a multiple of 4 bytes"; the type-tag string
starts with a comma as in the OSC wire format of §6. -/
def build_osc_message (address : List Nat) (args : List OscArg) : List Nat :=
  oscPadString address ++ oscPadString (44 :: args.map tagOf)
    ++ (args.map encodeArg).flatten

/-- Reads one padded OSC string block: the bytes before the first NUL, with
the NUL padding up to the 4-byte boundary checked and consumed. -/
def readOscString (l : List Nat) : Option (List Nat × List Nat) :=
  let content := l.takeWhile (fun b => b != 0)
  if content.length < l.length ∧
      content.length + padNulCount content.length ≤ l.length ∧
      (l.drop content.length).take (padNulCount content.length)
        = List.replicate (padNulCount content.length) 0 then
    some (content, l.drop (content.length + padNulCount content.length))
  else none

/-- Reads a big-endian 32-bit word. -/
def readBe32 : List Nat → Option (Nat × List Nat)
  | b0 :: b1 :: b2 :: b3 :: rest =>
      some (((b0 * 256 + b1) * 256 + b2) * 256 + b3, rest)
  | _ => none

/-- The signed value of a 32-bit two's-complement pattern
(`struct.unpack(">i", ...)`). -/
def bitsToInt32 (n : Nat) : Int :=
  if n < 2147483648 then (n : Int) else (n : Int) - 4294967296

/-- Decodes the argument blocks named by a list of type-tag bytes. -/
def readArgs : List Nat → List Nat → Option (List OscArg × List Nat)
  | [], rest => some ([], rest)
  | t :: ts, rest =>
      if t = 115 then
        match readOscString rest with
        | some (s, r) =>
            (readArgs ts r).map (fun p => (OscArg.s s :: p.1, p.2))
        | none => none
      else if t = 105 then
        match readBe32 rest with
        | some (n, r) =>
            (readArgs ts r).map (fun p => (OscArg.i (bitsToInt32 n) :: p.1, p.2))
        | none => none
      else if t = 102 then
        match readBe32 rest with
        | some (n, r) =>
            (readArgs ts r).map (fun p => (OscArg.f n :: p.1, p.2))
        | none => none
      else none

/-- Modelled from the spec: the inverse direction of the OSC framing of
§4.2/§6 ("This framing must round-trip exactly"), against which
`build_osc_message` is checked.  Reads the padded address block, the padded
comma-led type-tag block, then each argument block; the whole datagram must
be consumed. -/
def decode_osc_message (msg : List Nat) : Option (List Nat × List OscArg) :=
  match readOscString msg with
  | none => none
  | some (addr, r1) =>
    match readOscString r1 with
    | none => none
    | some (tags, r2) =>
      match tags with
      | 44 :: ts =>
          match readArgs ts r2 with
          | some (args, []) => some (addr, args)
          | _ => none
      | _ => none

/-- Well-formed control-message arguments: a string argument's bytes hold
no NUL byte (NUL terminates the wire encoding), an int argument fits in a
signed 32-bit word (`struct.pack(">i", ...)` would raise otherwise), and a
float argument's bit pattern fits in 32 bits. -/
def oscArgWF : OscArg → Prop
  | .s bytes => 0 ∉ bytes
  | .i v => -2147483648 ≤ v ∧ v < 2147483648
  | .f bits => bits < 4294967296

/-- Modelled from the spec: one chunk of a bridge response — missing source
`M4LConnection._reassemble_chunked_response`.  Per §4.2 each chunk is
"tagged with its own index and the total chunk count (`_c`, `_t`) plus an
independently base64-decodable data slice (`_d`)". -/
structure Chunk where
  c : Nat
  t : Nat
  d : String

/-- The receiver's per-index chunk buffer: arrived data slices keyed by
chunk index (a later arrival for the same index overwrites). -/
def insertChunk (m : Nat → Option String) (i : Nat) (s : String) :
    Nat → Option String :=
  fun j => if j = i then some s else m j

/-- Whether every index `0 .. total-1` has been seen at least once. -/
def chunksComplete (total : Nat) (m : Nat → Option String) : Bool :=
  (List.range total).all (fun i => (m i).isSome)

/-- Modelled from the spec: full-payload reassembly — "concatenate decoded
slices in index order, then parse as JSON" (§4.2).  `b64` is the
standard-library url-safe base64 decoder and `parse` the JSON codec, both
abstract here. -/
def assembleChunks (b64 : String → String) (parse : String → Option Json)
    (total : Nat) (m : Nat → Option String) : Option Json :=
  parse (String.join ((List.range total).map (fun i => b64 ((m i).getD ""))))

/-- Modelled from the spec: the receive loop for the chunks after the first
— "it buffers chunks by index as they arrive … and only attempts
full-payload reassembly … once every index 0..N-1 has been seen at least
once" (§4.2).  Each arrival is inserted into the buffer and completeness is
then checked; an exhausted arrival list means the missing chunks never
came. -/
def reassembleLoop (b64 : String → String) (parse : String → Option Json)
    (total : Nat) (m : Nat → Option String) : List Chunk → Option Json
  | [] => none
  | ck :: rest =>
      let m' := insertChunk m ck.c ck.d
      if chunksComplete total m' then assembleChunks b64 parse total m'
      else reassembleLoop b64 parse total m' rest

/-- Modelled from the spec: `M4LConnection._reassemble_chunked_response` —
missing source.  Per §4.2: "The receiver treats chunk index 0 of total 1 as
the full response and decodes immediately; for total > 1, it buffers chunks
by index as they arrive".  The first chunk is the one already received;
`arrivals` are the chunks subsequently delivered (in arrival order, which
UDP does not guarantee). -/
def reassemble_chunked_response (b64 : String → String)
    (parse : String → Option Json) (first : Chunk) (arrivals : List Chunk) :
    Option Json :=
  if first.t ≤ 1 then parse (b64 first.d)
  else
    let m := insertChunk (fun _ => none) first.c first.d
    if chunksComplete first.t m then assembleChunks b64 parse first.t m
    else reassembleLoop b64 parse first.t m arrivals

/-! ## Helper lemmas about the command channel -/

theorem ensureSock_of_sock {c : Conn} (env : Env) (hs : c.sock = true) :
    ensureSock c env = (true, c, env, []) := by
  simp [ensureSock, hs]

theorem ensureSock_trace {c : Conn} {env : Env} {b c1 env1 tr0}
    (h : ensureSock c env = (b, c1, env1, tr0)) :
    tr0 = [] ∨ tr0 = [Eff.connectCall] := by
  unfold ensureSock at h
  split at h
  · cases h; exact Or.inl rfl
  · split at h
    cases h
    exact Or.inr rfl

theorem connectStep_recvs (c : Conn) (env : Env) :
    ((connectStep c env).2.2).recvs = env.recvs := by
  unfold connectStep
  split
  · rfl
  · split <;> rfl

theorem ensureSock_recvs {c : Conn} {env : Env} {b c1 env1 tr0}
    (h : ensureSock c env = (b, c1, env1, tr0)) :
    env1.recvs = env.recvs := by
  unfold ensureSock at h
  split at h
  · cases h; rfl
  · rcases hc : connectStep c env with ⟨b', c', env'⟩
    rw [hc] at h
    cases h
    have := connectStep_recvs c env
    rw [hc] at this
    exact this

theorem recvStep_recvs {env : Env} {o env2} (h : recvStep env = (o, env2)) :
    env.recvs = env2.recvs ∨ env.recvs = o :: env2.recvs := by
  unfold recvStep at h
  rcases hr : env.recvs with _ | ⟨o', rest⟩
  · rw [hr] at h; cases h; exact Or.inl hr.symm
  · rw [hr] at h; cases h; exact Or.inr rfl

theorem attemptBody_ok_trace {o : RecvOutcome} {post v trPost}
    (h : attemptBody o post = .ok (v, trPost)) : trPost = tierTrace post := by
  unfold attemptBody at h
  split at h
  · cases h
  · split at h
    · cases h
    · cases h; rfl
  · cases h

theorem attemptBody_fail (e : String) (post : Nat) :
    attemptBody (.fail e) post = .error e := rfl

theorem attemptBody_remote_error {kvs post}
    (he : statusIsError (.obj kvs) = true) :
    attemptBody (.ok (.obj kvs)) post = .error (remoteMsg (.obj kvs)) := by
  simp [attemptBody, he]

theorem tierTrace_preDelay (ct : String) :
    tierTrace (preDelay ct) =
      if ct ∈ TIER_2_COMMANDS then [Eff.sleep 100] else [] := by
  unfold preDelay tierTrace
  split <;> simp

theorem tierTrace_postDelay (ct : String) :
    tierTrace (postDelay ct) =
      if ct ∈ TIER_2_COMMANDS then [Eff.sleep 100]
      else if ct ∈ TIER_1_COMMANDS then [Eff.sleep 50]
      else [] := by
  unfold postDelay tierTrace
  split
  · simp
  · split <;> simp

/-- Evaluation of one successful attempt: with a live socket and a
well-formed non-error response at the head of the receive oracle, the
attempt returns the `"result"` field and traces the write, the tier delays
and the effective timeout. -/
theorem sendAttempts_success {c : Conn} {env : Env} {kvs rest}
    (ct : String) (params : Json) (pre post : Nat) (isMod : Bool)
    (maxA n : Nat) (timeout : Option Nat)
    (hs : c.sock = true) (hr : env.recvs = .ok (.obj kvs) :: rest)
    (he : statusIsError (.obj kvs) = false) :
    sendAttempts ct params pre post isMod maxA (n + 1) timeout c env =
      (.ok ((jget (.obj kvs) "result").getD (.obj [])), c,
        [Eff.send ct params] ++ tierTrace pre
          ++ [Eff.setRecvTimeout (timeout.getD (if isMod then 15000 else 10000))]
          ++ tierTrace post) := by
  rw [sendAttempts, ensureSock_of_sock env hs]
  simp [recvStep, hr, attemptBody, he]

/-- Evaluation of a failing final attempt (one attempt left): the failure is
wrapped by the f-string of line 208 and the connection is left torn down
with an empty receive buffer. -/
theorem sendAttempts_fail_last {c : Conn} {env : Env} {o rest e}
    (ct : String) (params : Json) (pre post : Nat) (isMod : Bool)
    (maxA : Nat) (timeout : Option Nat)
    (hs : c.sock = true) (hr : env.recvs = o :: rest)
    (hb : attemptBody o post = .error e) :
    sendAttempts ct params pre post isMod maxA 1 timeout c env =
      (.error (.exc (failAfterMsg ct maxA e)), { sock := false, buf := "" },
        [Eff.send ct params] ++ tierTrace pre
          ++ [Eff.setRecvTimeout (timeout.getD (if isMod then 15000 else 10000))]) := by
  rw [sendAttempts, ensureSock_of_sock env hs]
  simp [recvStep, hr, hb]

/-- Evaluation of a failing attempt with attempts remaining and a
successful reconnect: the channel sleeps 300 ms, reconnects with a cleared
buffer, and re-runs the loop with one fewer attempt and the already
resolved timeout. -/
theorem sendAttempts_fail_retry {c : Conn} {env : Env} {o rrest e crest res c4 tr4}
    (ct : String) (params : Json) (pre post : Nat) (isMod : Bool)
    (maxA n : Nat) (timeout : Option Nat)
    (hs : c.sock = true) (hr : env.recvs = o :: rrest)
    (hb : attemptBody o post = .error e)
    (hc : env.connects = true :: crest)
    (h2 : sendAttempts ct params pre post isMod maxA (n + 1)
        (some (timeout.getD (if isMod then 15000 else 10000)))
        { sock := true, buf := "" } { connects := crest, recvs := rrest }
        = (res, c4, tr4)) :
    sendAttempts ct params pre post isMod maxA (n + 2) timeout c env =
      (res, c4,
        [Eff.send ct params] ++ tierTrace pre
          ++ [Eff.setRecvTimeout (timeout.getD (if isMod then 15000 else 10000))]
          ++ [Eff.sleep 300, Eff.connectCall] ++ tr4) := by
  rw [sendAttempts, ensureSock_of_sock env hs]
  simp [recvStep, hr, hb, connectStep, hc, h2]

@[simp]
theorem countSends_append (a b : List Eff) :
    countSends (a ++ b) = countSends a + countSends b := by
  simp [countSends, List.countP_append]

@[simp]
theorem countSends_nil : countSends [] = 0 := rfl

@[simp]
theorem countSends_cons_send (a : String) (p : Json) (tr : List Eff) :
    countSends (Eff.send a p :: tr) = countSends tr + 1 := by
  simp [countSends, List.countP_cons]

@[simp]
theorem countSends_cons_sleep (m : Nat) (tr : List Eff) :
    countSends (Eff.sleep m :: tr) = countSends tr := by
  simp [countSends, List.countP_cons]

@[simp]
theorem countSends_cons_connect (tr : List Eff) :
    countSends (Eff.connectCall :: tr) = countSends tr := by
  simp [countSends, List.countP_cons]

@[simp]
theorem countSends_cons_setRecvTimeout (m : Nat) (tr : List Eff) :
    countSends (Eff.setRecvTimeout m :: tr) = countSends tr := by
  simp [countSends, List.countP_cons]

@[simp]
theorem countSends_tierTrace (d : Nat) : countSends (tierTrace d) = 0 := by
  unfold tierTrace
  split <;> simp [countSends]

/-- The retry loop writes to the socket at most once per allowed attempt. -/
theorem sendAttempts_countSends (ct : String) (params : Json)
    (pre post : Nat) (isMod : Bool) (maxA : Nat) :
    ∀ n timeout c env,
      countSends (sendAttempts ct params pre post isMod maxA n timeout c env).2.2
        ≤ n := by
  intro n
  induction n with
  | zero =>
    intro timeout c env
    simp [sendAttempts, countSends]
  | succ k ih =>
    intro timeout c env
    rw [sendAttempts]
    rcases hes : ensureSock c env with ⟨b, c1, env1, tr0⟩
    have htr0 : countSends tr0 = 0 := by
      rcases ensureSock_trace hes with h0 | h0 <;> simp [h0, countSends]
    cases b with
    | false =>
      simp only [hes]
      simp [htr0]
    | true =>
      rcases hrs : recvStep env1 with ⟨o, env2⟩
      rcases hab : attemptBody o post with e | p
      · by_cases hk : k = 0
        · subst hk
          simp [hes, hrs, hab, htr0]
        · rcases hcs : connectStep { sock := false, buf := "" } env2 with ⟨b2, c3, env3⟩
          cases b2 with
          | false =>
            simp [hes, hrs, hab, hk, hcs, htr0]
          | true =>
            rcases hrec : sendAttempts ct params pre post isMod maxA k
                (some (timeout.getD (if isMod then 15000 else 10000)))
                c3 env3 with ⟨res, c4, tr4⟩
            have h4 : countSends tr4 ≤ k := by
              have := ih (some (timeout.getD (if isMod then 15000 else 10000)))
                c3 env3
              rw [hrec] at this
              exact this
            rcases Nat.exists_eq_succ_of_ne_zero hk with ⟨j, rfl⟩
            simp [hes, hrs, hab, hcs, hrec, htr0]
            omega
      · rcases p with ⟨v, trPost⟩
        have hp := attemptBody_ok_trace hab
        subst hp
        simp [hes, hrs, hab, htr0]

theorem setRecvTimeout_not_mem_tierTrace (ms d : Nat) :
    Eff.setRecvTimeout ms ∉ tierTrace d := by
  unfold tierTrace
  split <;> simp

/-- Every receive timeout installed by the retry loop is the effective
timeout: the caller's value when supplied, otherwise the default selected
by the modifying classification. -/
theorem sendAttempts_setRecvTimeout (ct : String) (params : Json)
    (pre post : Nat) (isMod : Bool) (maxA : Nat) :
    ∀ n timeout c env ms,
      Eff.setRecvTimeout ms
          ∈ (sendAttempts ct params pre post isMod maxA n timeout c env).2.2 →
      ms = timeout.getD (if isMod then 15000 else 10000) := by
  intro n
  induction n with
  | zero =>
    intro timeout c env ms hm
    simp [sendAttempts] at hm
  | succ k ih =>
    intro timeout c env ms hm
    rw [sendAttempts] at hm
    rcases hes : ensureSock c env with ⟨b, c1, env1, tr0⟩
    have htr0 : Eff.setRecvTimeout ms ∉ tr0 := by
      rcases ensureSock_trace hes with h0 | h0 <;> simp [h0]
    cases b with
    | false =>
      rw [hes] at hm
      exact absurd hm htr0
    | true =>
      rcases hrs : recvStep env1 with ⟨o, env2⟩
      rcases hab : attemptBody o post with e | p
      · by_cases hk : k = 0
        · subst hk
          simp [hes, hrs, hab] at hm
          rcases hm with hm | hm | hm
          · exact absurd hm htr0
          · exact absurd hm (setRecvTimeout_not_mem_tierTrace ms pre)
          · exact hm
        · rcases hcs : connectStep { sock := false, buf := "" } env2 with ⟨b2, c3, env3⟩
          cases b2 with
          | false =>
            simp [hes, hrs, hab, hk, hcs] at hm
            rcases hm with hm | hm | hm
            · exact absurd hm htr0
            · exact absurd hm (setRecvTimeout_not_mem_tierTrace ms pre)
            · exact hm
          | true =>
            rcases hrec : sendAttempts ct params pre post isMod maxA k
                (some (timeout.getD (if isMod then 15000 else 10000)))
                c3 env3 with ⟨res, c4, tr4⟩
            rcases Nat.exists_eq_succ_of_ne_zero hk with ⟨j, rfl⟩
            simp [hes, hrs, hab, hcs, hrec] at hm
            rcases hm with hm | hm | hm | hm
            · exact absurd hm htr0
            · exact absurd hm (setRecvTimeout_not_mem_tierTrace ms pre)
            · exact hm
            · have := ih (some (timeout.getD (if isMod then 15000 else 10000)))
                c3 env3 ms (by rw [hrec]; exact hm)
              simpa using this
      · rcases p with ⟨v, trPost⟩
        have hp := attemptBody_ok_trace hab
        subst hp
        simp [hes, hrs, hab] at hm
        rcases hm with hm | hm | hm | hm
        · exact absurd hm htr0
        · exact absurd hm (setRecvTimeout_not_mem_tierTrace ms pre)
        · exact hm
        · exact absurd hm (setRecvTimeout_not_mem_tierTrace ms post)

theorem connectStep_sock {c : Conn} {env : Env} {b c' env'}
    (h : connectStep c env = (b, c', env')) : c'.sock = b := by
  unfold connectStep at h
  split at h
  · cases h
    next hs => exact of_decide_eq_true (by simpa using hs)
  · rcases hr : env.connects with _ | ⟨b0, rest⟩ <;> rw [hr] at h <;> cases h <;> rfl

theorem connectStep_fail_state {env : Env} {c3 env3}
    (h : connectStep { sock := false, buf := "" } env = (false, c3, env3)) :
    c3 = { sock := false, buf := "" } := by
  unfold connectStep at h
  rcases hr : env.connects with _ | ⟨b0, rest⟩ <;> rw [hr] at h <;> simp at h
  · exact h.1.symm
  · rcases h with ⟨hb, hc, _⟩
    subst hb
    exact hc.symm

theorem ensureSock_false_sock {c : Conn} {env : Env} {c1 env1 tr0}
    (h : ensureSock c env = (false, c1, env1, tr0)) : c1.sock = false := by
  unfold ensureSock at h
  split at h
  · cases h
  · rcases hc : connectStep c env with ⟨b', c', env'⟩
    rw [hc] at h
    cases h
    exact connectStep_sock hc

/-- Whenever the retry loop raises, the socket has been torn down, and
unless the raise is the pre-attempt `ConnectionError` of line 161, the
receive buffer has been cleared as well. -/
theorem sendAttempts_error_state (ct : String) (params : Json)
    (pre post : Nat) (isMod : Bool) (maxA : Nat) :
    ∀ n timeout c env e c' tr, n ≠ 0 →
      sendAttempts ct params pre post isMod maxA n timeout c env
        = (.error e, c', tr) →
      c'.sock = false ∧
        (e ≠ .connErr "Not connected to Ableton" → c'.buf = "") := by
  intro n
  induction n with
  | zero => intro _ _ _ _ _ _ hn; exact absurd rfl hn
  | succ k ih =>
    intro timeout c env e c' tr _ heq
    rw [sendAttempts] at heq
    rcases hes : ensureSock c env with ⟨b, c1, env1, tr0⟩
    cases b with
    | false =>
      rw [hes] at heq
      cases heq
      exact ⟨ensureSock_false_sock hes, fun hne => absurd rfl hne⟩
    | true =>
      rcases hrs : recvStep env1 with ⟨o, env2⟩
      rcases hab : attemptBody o post with e0 | p
      · by_cases hk : k = 0
        · subst hk
          simp [hes, hrs, hab] at heq
          rcases heq with ⟨_, hc, _⟩
          rw [← hc]
          exact ⟨rfl, fun _ => rfl⟩
        · rcases hcs : connectStep { sock := false, buf := "" } env2 with ⟨b2, c3, env3⟩
          cases b2 with
          | false =>
            simp [hes, hrs, hab, hk, hcs] at heq
            rcases heq with ⟨_, hc, _⟩
            rw [← hc, connectStep_fail_state hcs]
            exact ⟨rfl, fun _ => rfl⟩
          | true =>
            rcases hrec : sendAttempts ct params pre post isMod maxA k
                (some (timeout.getD (if isMod then 15000 else 10000)))
                c3 env3 with ⟨res, c4, tr4⟩
            rcases Nat.exists_eq_succ_of_ne_zero hk with ⟨j, rfl⟩
            simp [hes, hrs, hab, hcs, hrec] at heq
            rcases heq with ⟨hres, hc, _⟩
            rw [hres] at hrec
            rw [← hc]
            exact ih (some (timeout.getD (if isMod then 15000 else 10000)))
              c3 env3 e c4 tr4 hk hrec
      · rcases p with ⟨v, trPost⟩
        rw [hes] at heq
        simp [hrs, hab] at heq

theorem attemptBody_ok_inv {o : RecvOutcome} {post v trPost}
    (h : attemptBody o post = .ok (v, trPost)) :
    ∃ kvs, o = RecvOutcome.ok (Json.obj kvs) ∧
      statusIsError (.obj kvs) = false ∧
      v = (jget (.obj kvs) "result").getD (.obj []) := by
  unfold attemptBody at h
  split at h
  · cases h
  · next kvs =>
    split at h
    · cases h
    · next he =>
      cases h
      exact ⟨kvs, rfl, by simpa using he, rfl⟩
  · cases h

theorem recvStep_outcome {env : Env} {o env2} (h : recvStep env = (o, env2)) :
    o = .fail "timed out" ∨ o ∈ env.recvs := by
  unfold recvStep at h
  rcases hr : env.recvs with _ | ⟨o', rest⟩ <;> rw [hr] at h <;> cases h
  · exact Or.inl rfl
  · simp

/-- A successful run of the retry loop returns exactly the `"result"` field
(defaulting to the empty object) of a non-error object response drawn from
the receive oracle. -/
theorem sendAttempts_ok_result (ct : String) (params : Json)
    (pre post : Nat) (isMod : Bool) (maxA : Nat) :
    ∀ n timeout c env v c' tr,
      sendAttempts ct params pre post isMod maxA n timeout c env
        = (.ok v, c', tr) →
      ∃ kvs, RecvOutcome.ok (Json.obj kvs) ∈ env.recvs ∧
        statusIsError (.obj kvs) = false ∧
        v = (jget (.obj kvs) "result").getD (.obj []) := by
  intro n
  induction n with
  | zero =>
    intro timeout c env v c' tr heq
    simp [sendAttempts] at heq
  | succ k ih =>
    intro timeout c env v c' tr heq
    rw [sendAttempts] at heq
    rcases hes : ensureSock c env with ⟨b, c1, env1, tr0⟩
    cases b with
    | false =>
      rw [hes] at heq
      cases heq
    | true =>
      rcases hrs : recvStep env1 with ⟨o, env2⟩
      have henv1 : env1.recvs = env.recvs := ensureSock_recvs hes
      rcases hab : attemptBody o post with e0 | p
      · by_cases hk : k = 0
        · subst hk
          simp [hes, hrs, hab] at heq
        · rcases hcs : connectStep { sock := false, buf := "" } env2 with ⟨b2, c3, env3⟩
          cases b2 with
          | false =>
            simp [hes, hrs, hab, hk, hcs] at heq
          | true =>
            rcases hrec : sendAttempts ct params pre post isMod maxA k
                (some (timeout.getD (if isMod then 15000 else 10000)))
                c3 env3 with ⟨res, c4, tr4⟩
            rcases Nat.exists_eq_succ_of_ne_zero hk with ⟨j, rfl⟩
            simp [hes, hrs, hab, hcs, hrec] at heq
            rcases heq with ⟨hres, _, _⟩
            rw [hres] at hrec
            rcases ih (some (timeout.getD (if isMod then 15000 else 10000)))
                c3 env3 v c4 tr4 hrec with ⟨kvs, hmem, hst, hv⟩
            refine ⟨kvs, ?_, hst, hv⟩
            have henv3 : env3.recvs = env2.recvs := by
              have := connectStep_recvs { sock := false, buf := "" } env2
              rw [hcs] at this
              exact this
            rw [henv3] at hmem
            rcases recvStep_recvs hrs with h2 | h2
            · rw [← henv1, h2]; exact hmem
            · rw [← henv1, h2]; exact List.mem_cons_of_mem _ hmem
      · rcases p with ⟨v0, trPost⟩
        rw [hes] at heq
        simp [hrs, hab] at heq
        rcases attemptBody_ok_inv hab with ⟨kvs, ho, hst, hv⟩
        rcases heq with ⟨hveq, _, _⟩
        refine ⟨kvs, ?_, hst, by rw [← hveq]; exact hv⟩
        rcases recvStep_outcome hrs with h2 | h2
        · rw [h2] at ho; cases ho
        · rw [← henv1]; rw [ho] at h2; exact h2

theorem maxAttemptsFor_ne_zero (ct : String) : maxAttemptsFor ct ≠ 0 := by
  unfold maxAttemptsFor
  split <;> simp

theorem maxAttemptsFor_le_two (ct : String) : maxAttemptsFor ct ≤ 2 := by
  unfold maxAttemptsFor
  split <;> simp

theorem maxAttemptsFor_of_mem {ct : String} (h : ct ∈ NON_IDEMPOTENT_COMMANDS) :
    maxAttemptsFor ct = 1 := by
  simp [maxAttemptsFor, h]

theorem maxAttemptsFor_of_not_mem {ct : String}
    (h : ct ∉ NON_IDEMPOTENT_COMMANDS) : maxAttemptsFor ct = 2 := by
  simp [maxAttemptsFor, h]

/-- If the first attempt runs (live socket), the effective timeout is
installed on the socket no matter how the attempt ends. -/
theorem sendAttempts_setRecvTimeout_mem (ct : String) (params : Json)
    (pre post : Nat) (isMod : Bool) (maxA n : Nat) (timeout : Option Nat)
    (c : Conn) (env : Env) (hs : c.sock = true) :
    Eff.setRecvTimeout (timeout.getD (if isMod then 15000 else 10000))
      ∈ (sendAttempts ct params pre post isMod maxA (n + 1) timeout c env).2.2 := by
  rw [sendAttempts, ensureSock_of_sock env hs]
  rcases hrs : recvStep env with ⟨o, env2⟩
  rcases hab : attemptBody o post with e | p
  · by_cases hk : n = 0
    · subst hk
      simp [hrs, hab]
    · rcases hcs : connectStep { sock := false, buf := "" } env2 with ⟨b2, c3, env3⟩
      cases b2 with
      | false => simp [hrs, hab, hk, hcs]
      | true =>
        rcases hrec : sendAttempts ct params pre post isMod maxA n
            (some (timeout.getD (if isMod then 15000 else 10000)))
            c3 env3 with ⟨res, c4, tr4⟩
        rcases Nat.exists_eq_succ_of_ne_zero hk with ⟨j, rfl⟩
        simp [hrs, hab, hcs, hrec]
  · rcases p with ⟨v, trPost⟩
    simp [hrs, hab]

/-- With a live socket, every run's trace starts with the socket write of
the serialized command. -/
theorem sendAttempts_trace_head (ct : String) (params : Json)
    (pre post : Nat) (isMod : Bool) (maxA n : Nat) (timeout : Option Nat)
    (c : Conn) (env : Env) (hs : c.sock = true) :
    ∃ tl, (sendAttempts ct params pre post isMod maxA (n + 1) timeout c env).2.2
      = Eff.send ct params :: tl := by
  rw [sendAttempts, ensureSock_of_sock env hs]
  rcases hrs : recvStep env with ⟨o, env2⟩
  rcases hab : attemptBody o post with e | p
  · by_cases hk : n = 0
    · subst hk
      exact ⟨tierTrace pre
        ++ [Eff.setRecvTimeout (timeout.getD (if isMod then 15000 else 10000))],
        by simp [hrs, hab]⟩
    · rcases hcs : connectStep { sock := false, buf := "" } env2 with ⟨b2, c3, env3⟩
      cases b2 with
      | false =>
        exact ⟨tierTrace pre
          ++ [Eff.setRecvTimeout (timeout.getD (if isMod then 15000 else 10000)),
            Eff.sleep 300, Eff.connectCall],
          by simp [hrs, hab, hk, hcs]⟩
      | true =>
        rcases hrec : sendAttempts ct params pre post isMod maxA n
            (some (timeout.getD (if isMod then 15000 else 10000)))
            c3 env3 with ⟨res, c4, tr4⟩
        rcases Nat.exists_eq_succ_of_ne_zero hk with ⟨j, rfl⟩
        exact ⟨tierTrace pre
          ++ Eff.setRecvTimeout (timeout.getD (if isMod then 15000 else 10000))
            :: Eff.sleep 300 :: Eff.connectCall :: tr4,
          by simp [hrs, hab, hcs, hrec]⟩
  · rcases p with ⟨v, trPost⟩
    exact ⟨tierTrace pre
      ++ Eff.setRecvTimeout (timeout.getD (if isMod then 15000 else 10000))
        :: trPost,
      by simp [hrs, hab]⟩

/-! ## Claim theorems for the command channel -/

/-- C6: `send_command` applies pacing delays by timing tier: Tier-2 (Heavy)
command types sleep 100 ms after writing the request but before reading the
response and 100 ms after a successful read; Tier-1 (Light) types sleep
only 50 ms after a successful read; all other types incur no tier delay.
Stated as the full effect trace of a successful exchange: the write,
the Tier-2 pre-delay between the write and the read, and the tier-dependent
post-delay after the successful read. -/
theorem send_command_tier_delays :
    ∀ (ct : String) (params : Json) (timeout : Option Nat) (c : Conn)
      (env : Env) (kvs : List (String × Json)) (rest : List RecvOutcome),
      c.sock = true → env.recvs = .ok (.obj kvs) :: rest →
      statusIsError (.obj kvs) = false →
      (send_command ct params timeout c env).2.2 =
        [Eff.send ct params]
          ++ (if ct ∈ TIER_2_COMMANDS then [Eff.sleep 100] else [])
          ++ [Eff.setRecvTimeout
              (timeout.getD (if ct ∈ MODIFYING_COMMANDS then 15000 else 10000))]
          ++ (if ct ∈ TIER_2_COMMANDS then [Eff.sleep 100]
              else if ct ∈ TIER_1_COMMANDS then [Eff.sleep 50] else []) := by
  intro ct params timeout c env kvs rest hs hr he
  unfold send_command
  rcases hma : maxAttemptsFor ct with _ | m
  · exact absurd hma (maxAttemptsFor_ne_zero ct)
  · rw [sendAttempts_success ct params (preDelay ct) (postDelay ct)
        (decide (ct ∈ MODIFYING_COMMANDS)) (m + 1) m timeout hs hr he]
    simp [tierTrace_preDelay, tierTrace_postDelay]

/-- Witness for C6 at `"create_midi_track"` (a Tier-2, modifying command):
one successful exchange traces the write, a 100 ms pre-delay, the 15 s
default timeout and a 100 ms post-delay. -/
theorem send_command_tier_delays_witness :
    (send_command "create_midi_track" (Json.obj []) none
        { sock := true, buf := "" }
        { connects := [], recvs := [RecvOutcome.ok (Json.obj [])] }).2.2 =
      [Eff.send "create_midi_track" (Json.obj []), Eff.sleep 100,
        Eff.setRecvTimeout 15000, Eff.sleep 100] := by
  rw [send_command_tier_delays "create_midi_track" (Json.obj []) none
      { sock := true, buf := "" }
      { connects := [], recvs := [RecvOutcome.ok (Json.obj [])] } [] []
      rfl rfl (by rfl),
    if_pos (show "create_midi_track" ∈ TIER_2_COMMANDS by decide),
    if_pos (show "create_midi_track" ∈ MODIFYING_COMMANDS by decide)]
  rfl

/-- C7: when the caller supplies no timeout, the effective read timeout of
`send_command` is 15 s for command types in `MODIFYING_COMMANDS` (the union
of the tier tables) and 10 s otherwise; an explicitly supplied caller
timeout is used unchanged in every case.  Part one: every timeout installed
on the socket during the call equals the effective timeout.  Part two: when
the socket is live the effective timeout is actually installed. -/
theorem send_command_effective_timeout :
    ∀ (ct : String) (params : Json) (timeout : Option Nat) (c : Conn) (env : Env),
      (∀ ms, Eff.setRecvTimeout ms ∈ (send_command ct params timeout c env).2.2 →
        ms = timeout.getD (if ct ∈ MODIFYING_COMMANDS then 15000 else 10000)) ∧
      (c.sock = true →
        Eff.setRecvTimeout
            (timeout.getD (if ct ∈ MODIFYING_COMMANDS then 15000 else 10000))
          ∈ (send_command ct params timeout c env).2.2) := by
  intro ct params timeout c env
  constructor
  · intro ms hm
    have := sendAttempts_setRecvTimeout ct params (preDelay ct) (postDelay ct)
      (decide (ct ∈ MODIFYING_COMMANDS)) (maxAttemptsFor ct) (maxAttemptsFor ct)
      timeout c env ms hm
    simpa using this
  · intro hs
    unfold send_command
    rcases hma : maxAttemptsFor ct with _ | m
    · exact absurd hma (maxAttemptsFor_ne_zero ct)
    · have := sendAttempts_setRecvTimeout_mem ct params (preDelay ct) (postDelay ct)
        (decide (ct ∈ MODIFYING_COMMANDS)) (m + 1) m timeout c env hs
      simpa using this

/-- Witness for C7: `"get_session_info"` is not modifying, so with no caller
timeout the 10 s default is installed. -/
theorem send_command_effective_timeout_witness :
    Eff.setRecvTimeout 10000
      ∈ (send_command "get_session_info" (Json.obj []) none
          { sock := true, buf := "" }
          { connects := [], recvs := [RecvOutcome.ok (Json.obj [])] }).2.2 := by
  have h := (send_command_effective_timeout "get_session_info" (Json.obj []) none
      { sock := true, buf := "" }
      { connects := [], recvs := [RecvOutcome.ok (Json.obj [])] }).2 rfl
  rw [if_neg (show ¬ "get_session_info" ∈ MODIFYING_COMMANDS by decide)] at h
  exact h

/-- C9 (implicit): whenever `send_command` raises, the connection object is
left torn down — `self.sock` is `None` afterwards — and on any failure
occurring during a send/receive attempt (that is, any raise other than the
pre-attempt `ConnectionError("Not connected to Ableton")` of line 161) the
receive buffer is also reset to the empty string. -/
theorem send_command_teardown_on_raise :
    ∀ (ct : String) (params : Json) (timeout : Option Nat) (c : Conn)
      (env : Env) (e : PyErr) (c' : Conn) (tr : List Eff),
      send_command ct params timeout c env = (.error e, c', tr) →
      c'.sock = false ∧
        (e ≠ .connErr "Not connected to Ableton" → c'.buf = "") := by
  intro ct params timeout c env e c' tr heq
  exact sendAttempts_error_state ct params (preDelay ct) (postDelay ct)
    (decide (ct ∈ MODIFYING_COMMANDS)) (maxAttemptsFor ct) (maxAttemptsFor ct)
    timeout c env e c' tr (maxAttemptsFor_ne_zero ct) heq

/-- Witness for C9: a run failing on both attempts ends with the socket
gone and the buffer cleared, even though the buffer held stale bytes. -/
theorem send_command_teardown_on_raise_witness :
    ({ sock := false, buf := "" } : Conn).sock = false ∧
      (PyErr.exc (failAfterMsg "get_session_info" 2 "reset2")
          ≠ .connErr "Not connected to Ableton" →
        ({ sock := false, buf := "" } : Conn).buf = "") := by
  exact send_command_teardown_on_raise "get_session_info" (Json.obj []) none
    { sock := true, buf := "stale" }
    { connects := [true], recvs := [.fail "reset", .fail "reset2"] }
    (PyErr.exc (failAfterMsg "get_session_info" 2 "reset2"))
    { sock := false, buf := "" }
    [Eff.send "get_session_info" (Json.obj []), Eff.setRecvTimeout 10000,
      Eff.sleep 300, Eff.connectCall,
      Eff.send "get_session_info" (Json.obj []), Eff.setRecvTimeout 10000]
    rfl

/-- C10 (implicit): on success, `send_command` returns only the value of
the response's `"result"` field, returning an empty map when that field is
absent; the response envelope itself (with its `"status"`/`"message"`
fields) is never the returned value — the returned value is exactly the
`"result"` field of some non-error object response delivered by the
socket. -/
theorem send_command_returns_result_field :
    ∀ (ct : String) (params : Json) (timeout : Option Nat) (c : Conn)
      (env : Env) (v : Json) (c' : Conn) (tr : List Eff),
      send_command ct params timeout c env = (.ok v, c', tr) →
      ∃ kvs, RecvOutcome.ok (Json.obj kvs) ∈ env.recvs ∧
        statusIsError (Json.obj kvs) = false ∧
        v = (jget (Json.obj kvs) "result").getD (.obj []) := by
  intro ct params timeout c env v c' tr heq
  exact sendAttempts_ok_result ct params (preDelay ct) (postDelay ct)
    (decide (ct ∈ MODIFYING_COMMANDS)) (maxAttemptsFor ct) (maxAttemptsFor ct)
    timeout c env v c' tr heq

/-- Witness for C10: a response with both a `"status"` and a `"result"`
field yields exactly the `"result"` value. -/
theorem send_command_returns_result_field_witness :
    ∃ kvs, RecvOutcome.ok (Json.obj kvs)
        ∈ [RecvOutcome.ok (Json.obj
            [("status", Json.str "success"), ("result", Json.num 7)])] ∧
      statusIsError (Json.obj kvs) = false ∧
      Json.num 7 = (jget (Json.obj kvs) "result").getD (.obj []) := by
  exact send_command_returns_result_field "get_session_info" (Json.obj []) none
    { sock := true, buf := "" }
    { connects := [],
      recvs := [RecvOutcome.ok (Json.obj
        [("status", Json.str "success"), ("result", Json.num 7)])] }
    (Json.num 7) { sock := true, buf := "" }
    [Eff.send "get_session_info" (Json.obj []), Eff.setRecvTimeout 10000]
    rfl

/-- C1: for every command type, `send_command` performs at most 2 socket
send attempts, and at most 1 if the type is in `NON_IDEMPOTENT_COMMANDS`;
on a transport-level failure with an attempt remaining it tears down the
socket, waits 300 ms, re-establishes the connection and resends; exhausting
all attempts raises a failure naming the command type and the attempt count
(via the message `failAfterMsg`). -/
theorem send_command_retry_policy :
    ∀ (ct : String) (params : Json) (timeout : Option Nat) (c : Conn) (env : Env),
      countSends (send_command ct params timeout c env).2.2 ≤ 2 ∧
      (ct ∈ NON_IDEMPOTENT_COMMANDS →
        countSends (send_command ct params timeout c env).2.2 ≤ 1) ∧
      (∀ e rrest crest, ct ∉ NON_IDEMPOTENT_COMMANDS → c.sock = true →
        env.recvs = .fail e :: rrest → env.connects = true :: crest →
        ∃ tr', (send_command ct params timeout c env).2.2 =
          [Eff.send ct params] ++ tierTrace (preDelay ct)
            ++ [Eff.setRecvTimeout (timeout.getD
                  (if ct ∈ MODIFYING_COMMANDS then 15000 else 10000))]
            ++ [Eff.sleep 300, Eff.connectCall, Eff.send ct params] ++ tr') ∧
      (∀ e rrest, ct ∈ NON_IDEMPOTENT_COMMANDS → c.sock = true →
        env.recvs = .fail e :: rrest →
        (send_command ct params timeout c env).1 =
          .error (.exc (failAfterMsg ct 1 e))) ∧
      (∀ e1 e2 rrest crest, ct ∉ NON_IDEMPOTENT_COMMANDS → c.sock = true →
        env.recvs = .fail e1 :: .fail e2 :: rrest → env.connects = true :: crest →
        (send_command ct params timeout c env).1 =
          .error (.exc (failAfterMsg ct 2 e2))) := by
  intro ct params timeout c env
  refine ⟨?_, ?_, ?_, ?_, ?_⟩
  · exact (sendAttempts_countSends ct params (preDelay ct) (postDelay ct)
      (decide (ct ∈ MODIFYING_COMMANDS)) (maxAttemptsFor ct) (maxAttemptsFor ct)
      timeout c env).trans (maxAttemptsFor_le_two ct)
  · intro hni
    unfold send_command
    rw [maxAttemptsFor_of_mem hni]
    exact sendAttempts_countSends ct params (preDelay ct) (postDelay ct)
      (decide (ct ∈ MODIFYING_COMMANDS)) 1 1 timeout c env
  · intro e rrest crest hni hs hr hc
    unfold send_command
    rw [maxAttemptsFor_of_not_mem hni]
    rcases hrec : sendAttempts ct params (preDelay ct) (postDelay ct)
        (decide (ct ∈ MODIFYING_COMMANDS)) 2 1
        (some (timeout.getD
          (if decide (ct ∈ MODIFYING_COMMANDS) then 15000 else 10000)))
        { sock := true, buf := "" }
        { connects := crest, recvs := rrest } with ⟨res, c4, tr4⟩
    obtain ⟨tl, htl⟩ := sendAttempts_trace_head ct params (preDelay ct)
      (postDelay ct) (decide (ct ∈ MODIFYING_COMMANDS)) 2 0
      (some (timeout.getD
        (if decide (ct ∈ MODIFYING_COMMANDS) then 15000 else 10000)))
      { sock := true, buf := "" } { connects := crest, recvs := rrest } rfl
    rw [hrec] at htl
    have htl2 : tr4 = Eff.send ct params :: tl := htl
    refine ⟨tl, ?_⟩
    rw [sendAttempts_fail_retry ct params (preDelay ct) (postDelay ct)
      (decide (ct ∈ MODIFYING_COMMANDS)) 2 0 timeout hs hr
      (attemptBody_fail e _) hc hrec]
    simp [htl2]
  · intro e rrest hni hs hr
    unfold send_command
    rw [maxAttemptsFor_of_mem hni]
    rw [sendAttempts_fail_last ct params (preDelay ct) (postDelay ct)
      (decide (ct ∈ MODIFYING_COMMANDS)) 1 timeout hs hr (attemptBody_fail e _)]
  · intro e1 e2 rrest crest hni hs hr hc
    unfold send_command
    rw [maxAttemptsFor_of_not_mem hni]
    rcases hrec : sendAttempts ct params (preDelay ct) (postDelay ct)
        (decide (ct ∈ MODIFYING_COMMANDS)) 2 1
        (some (timeout.getD (if decide (ct ∈ MODIFYING_COMMANDS) then 15000 else 10000)))
        { sock := true, buf := "" }
        { connects := crest, recvs := .fail e2 :: rrest } with ⟨res, c4, tr4⟩
    rw [sendAttempts_fail_retry ct params (preDelay ct) (postDelay ct)
      (decide (ct ∈ MODIFYING_COMMANDS)) 2 0 timeout hs hr
      (attemptBody_fail e1 _) hc hrec]
    have := @sendAttempts_fail_last { sock := true, buf := "" }
      { connects := crest, recvs := .fail e2 :: rrest } (.fail e2) rrest e2
      ct params (preDelay ct) (postDelay ct)
      (decide (ct ∈ MODIFYING_COMMANDS)) 2
      (some (timeout.getD (if decide (ct ∈ MODIFYING_COMMANDS) then 15000 else 10000)))
      rfl rfl (attemptBody_fail e2 _)
    rw [this] at hrec
    cases hrec
    rfl

/-- Witness for C1 at `"create_midi_track"` (non-idempotent): one injected
transport failure exhausts the single allowed attempt and the raise names
the command and the attempt count. -/
theorem send_command_retry_policy_witness :
    (send_command "create_midi_track" (Json.obj []) none
        { sock := true, buf := "" }
        { connects := [true], recvs := [.fail "connection reset"] }).1 =
      .error (.exc (failAfterMsg "create_midi_track" 1 "connection reset")) := by
  exact (send_command_retry_policy "create_midi_track" (Json.obj []) none
      { sock := true, buf := "" }
      { connects := [true], recvs := [.fail "connection reset"] }).2.2.2.1
    "connection reset" [] (by decide) rfl rfl

/-- C2 counterexample: the claim says a well-formed `"error"`-status
response is surfaced with the remote message verbatim and never retried.
In the source, the raise of ableton.py line 187 is caught by the generic
`except` of line 195, so for an idempotent command the channel reconnects
and sends the command a second time, and the final raise wraps the remote
message in the line-208 f-string instead of surfacing it verbatim.  Here
`"get_session_info"` with two `"error"` responses produces two socket
writes and the wrapped message. -/
theorem send_command_remote_error_retried :
    countSends (send_command "get_session_info" (Json.obj []) none
        { sock := true, buf := "" }
        { connects := [true],
          recvs := [.ok (Json.obj
              [("status", Json.str "error"), ("message", Json.str "boom")]),
            .ok (Json.obj
              [("status", Json.str "error"), ("message", Json.str "boom")])] }).2.2
      = 2 ∧
    (send_command "get_session_info" (Json.obj []) none
        { sock := true, buf := "" }
        { connects := [true],
          recvs := [.ok (Json.obj
              [("status", Json.str "error"), ("message", Json.str "boom")]),
            .ok (Json.obj
              [("status", Json.str "error"), ("message", Json.str "boom")])] }).1
      = .error (.exc (failAfterMsg "get_session_info" 2 "boom")) :=
  ⟨rfl, rfl⟩

/-- C2 as amended: a well-formed response with status `"error"` makes the
attempt raise with the remote-supplied message, but the raise is handled
like any other attempt failure: a non-idempotent command makes no further
send attempt and fails with the remote message wrapped in the line-208
message naming the command type and attempt count, while an idempotent
command tears the socket down, backs off 300 ms, reconnects and resends
once. -/
theorem send_command_remote_error_behaviour :
    ∀ (ct : String) (params : Json) (timeout : Option Nat) (c : Conn)
      (env : Env) (kvs : List (String × Json)) (rrest : List RecvOutcome),
      c.sock = true → env.recvs = .ok (.obj kvs) :: rrest →
      statusIsError (.obj kvs) = true →
      (ct ∈ NON_IDEMPOTENT_COMMANDS →
        send_command ct params timeout c env =
          (.error (.exc (failAfterMsg ct 1 (remoteMsg (.obj kvs)))),
            { sock := false, buf := "" },
            [Eff.send ct params] ++ tierTrace (preDelay ct)
              ++ [Eff.setRecvTimeout (timeout.getD
                    (if ct ∈ MODIFYING_COMMANDS then 15000 else 10000))])) ∧
      (∀ crest, ct ∉ NON_IDEMPOTENT_COMMANDS → env.connects = true :: crest →
        ∃ tr', (send_command ct params timeout c env).2.2 =
          [Eff.send ct params] ++ tierTrace (preDelay ct)
            ++ [Eff.setRecvTimeout (timeout.getD
                  (if ct ∈ MODIFYING_COMMANDS then 15000 else 10000))]
            ++ [Eff.sleep 300, Eff.connectCall, Eff.send ct params] ++ tr') := by
  intro ct params timeout c env kvs rrest hs hr he
  constructor
  · intro hni
    unfold send_command
    rw [maxAttemptsFor_of_mem hni]
    rw [sendAttempts_fail_last ct params (preDelay ct) (postDelay ct)
      (decide (ct ∈ MODIFYING_COMMANDS)) 1 timeout hs hr
      (attemptBody_remote_error he)]
    simp
  · intro crest hni hc
    unfold send_command
    rw [maxAttemptsFor_of_not_mem hni]
    rcases hrec : sendAttempts ct params (preDelay ct) (postDelay ct)
        (decide (ct ∈ MODIFYING_COMMANDS)) 2 1
        (some (timeout.getD
          (if decide (ct ∈ MODIFYING_COMMANDS) then 15000 else 10000)))
        { sock := true, buf := "" }
        { connects := crest, recvs := rrest } with ⟨res, c4, tr4⟩
    obtain ⟨tl, htl⟩ := sendAttempts_trace_head ct params (preDelay ct)
      (postDelay ct) (decide (ct ∈ MODIFYING_COMMANDS)) 2 0
      (some (timeout.getD
        (if decide (ct ∈ MODIFYING_COMMANDS) then 15000 else 10000)))
      { sock := true, buf := "" } { connects := crest, recvs := rrest } rfl
    rw [hrec] at htl
    have htl2 : tr4 = Eff.send ct params :: tl := htl
    refine ⟨tl, ?_⟩
    rw [sendAttempts_fail_retry ct params (preDelay ct) (postDelay ct)
      (decide (ct ∈ MODIFYING_COMMANDS)) 2 0 timeout hs hr
      (attemptBody_remote_error he) hc hrec]
    simp [htl2]

/-- Witness for the amended C2 at `"create_midi_track"` (non-idempotent,
Tier-2, modifying): a single `"error"` response exhausts the only attempt
and the wrapped message embeds the remote-supplied text. -/
theorem send_command_remote_error_behaviour_witness :
    send_command "create_midi_track" (Json.obj []) none
        { sock := true, buf := "" }
        { connects := [],
          recvs := [.ok (Json.obj
            [("status", Json.str "error"), ("message", Json.str "boom")])] } =
      (.error (.exc (failAfterMsg "create_midi_track" 1 "boom")),
        { sock := false, buf := "" },
        [Eff.send "create_midi_track" (Json.obj []), Eff.sleep 100,
          Eff.setRecvTimeout 15000]) := by
  have h := (send_command_remote_error_behaviour "create_midi_track"
      (Json.obj []) none { sock := true, buf := "" }
      { connects := [],
        recvs := [.ok (Json.obj
          [("status", Json.str "error"), ("message", Json.str "boom")])] }
      [("status", Json.str "error"), ("message", Json.str "boom")] []
      rfl rfl (by rfl)).1 (by decide)
  rw [h]
  rfl

/-! ## Claim theorem for the connection supervisor -/

/-- C8: when no valid connection exists (`existingValid ≠ some true`),
`get_ableton_connection` attempts to create and connect a new connection at
most 3 times, sleeping 1 second between attempts, declares success only if
`connect()` succeeded and the `get_session_info` validation command also
succeeded, and raises the final connection failure when all 3 attempts
fail.  The last conjunct pins the all-fail trace: three connect attempts
(each followed by the validation send exactly when its connect succeeded)
with a single 1-second sleep between consecutive attempts. -/
theorem get_ableton_connection_bounded :
    ∀ (ev : Option Bool) (a1 a2 a3 : Bool × Bool), ev ≠ some true →
      countConnects (get_ableton_connection ev a1 a2 a3).2 ≤ 3 ∧
      ((get_ableton_connection ev a1 a2 a3).1 = .ok ()
        ↔ (a1.1 && a1.2 || a2.1 && a2.2 || a3.1 && a3.2) = true) ∧
      ((get_ableton_connection ev a1 a2 a3).1 = .ok () →
        SupEff.validate ∈ (get_ableton_connection ev a1 a2 a3).2) ∧
      ((a1.1 && a1.2 || a2.1 && a2.2 || a3.1 && a3.2) = false →
        (get_ableton_connection ev a1 a2 a3).1 =
          .error "Could not connect to Ableton. Make sure the Remote Script is running.") ∧
      (∀ ms, SupEff.sleep ms ∈ (get_ableton_connection ev a1 a2 a3).2 → ms = 1000) ∧
      ((a1.1 && a1.2 || a2.1 && a2.2 || a3.1 && a3.2) = false →
        (get_ableton_connection ev a1 a2 a3).2 =
          ([SupEff.connectAttempt] ++ (if a1.1 then [SupEff.validate] else []))
            ++ [SupEff.sleep 1000]
            ++ ([SupEff.connectAttempt] ++ (if a2.1 then [SupEff.validate] else []))
            ++ [SupEff.sleep 1000]
            ++ ([SupEff.connectAttempt] ++ (if a3.1 then [SupEff.validate] else []))) := by
  intro ev a1 a2 a3 hev
  have hred : get_ableton_connection ev a1 a2 a3 = supLoop [a1, a2, a3] := by
    rcases ev with _ | b
    · rfl
    · cases b
      · rfl
      · exact absurd rfl hev
  rw [hred]
  obtain ⟨c1, v1⟩ := a1
  obtain ⟨c2, v2⟩ := a2
  obtain ⟨c3, v3⟩ := a3
  cases c1 <;> cases v1 <;> cases c2 <;> cases v2 <;> cases c3 <;> cases v3 <;>
    simp [supLoop, countConnects, countSupSleeps]

/-- Witness for C8: three failing attempts (one failing at validation, two
failing at connect) end in the final connection failure. -/
theorem get_ableton_connection_bounded_witness :
    (get_ableton_connection none (true, false) (false, false) (false, true)).1 =
      .error "Could not connect to Ableton. Make sure the Remote Script is running." :=
  (get_ableton_connection_bounded none (true, false) (false, false) (false, true)
    (by simp)).2.2.2.1 rfl

/-! ## Helper lemmas for the receive buffer -/

theorem splitAtNl_nil : splitAtNl [] = none := rfl

theorem splitAtNl_cons_nl (cs : List Char) :
    splitAtNl ('\n' :: cs) = some ([], cs) := by
  simp [splitAtNl, List.takeWhile_cons]

theorem splitAtNl_cons_ne {c : Char} (hc : c ≠ '\n') (cs : List Char) :
    splitAtNl (c :: cs) = (splitAtNl cs).map (fun q => (c :: q.1, q.2)) := by
  unfold splitAtNl
  simp only [List.takeWhile_cons, bne_iff_ne, ne_eq, hc, not_false_eq_true,
    if_true, List.length_cons]
  by_cases h : (cs.takeWhile (fun x => x != '\n')).length < cs.length
  · rw [if_pos (by omega), if_pos h]
    simp
  · rw [if_neg (by omega), if_neg h]
    rfl

theorem splitAtNl_some_append {s : List Char} {a b : List Char}
    (h : splitAtNl s = some (a, b)) (t : List Char) :
    splitAtNl (s ++ t) = some (a, b ++ t) := by
  induction s generalizing a with
  | nil => rw [splitAtNl_nil] at h; cases h
  | cons c cs ih =>
    by_cases hc : c = '\n'
    · subst hc
      rw [splitAtNl_cons_nl] at h
      cases h
      rw [List.cons_append, splitAtNl_cons_nl]
    · rw [splitAtNl_cons_ne hc] at h
      rcases hq : splitAtNl cs with _ | ⟨q1, q2⟩
      · rw [hq] at h; cases h
      · rw [hq] at h
        cases h
        rw [List.cons_append, splitAtNl_cons_ne hc, ih hq]
        rfl

theorem splitAtNl_none_append {s : List Char} (h : splitAtNl s = none)
    (t : List Char) :
    splitAtNl (s ++ t) = (splitAtNl t).map (fun q => (s ++ q.1, q.2)) := by
  induction s with
  | nil =>
    rcases hq : splitAtNl t with _ | ⟨q1, q2⟩ <;> simp [hq]
  | cons c cs ih =>
    by_cases hc : c = '\n'
    · subst hc
      rw [splitAtNl_cons_nl] at h
      cases h
    · rw [splitAtNl_cons_ne hc] at h
      have hcs : splitAtNl cs = none := by
        rcases hq : splitAtNl cs with _ | q
        · rfl
        · rw [hq] at h; cases h
      rw [List.cons_append, splitAtNl_cons_ne hc, ih hcs]
      rcases hq : splitAtNl t with _ | ⟨q1, q2⟩ <;> simp

theorem linesResult_of_some {parse : List Char → Option Json}
    {s line rest : List Char} {j : Json}
    (h : splitAtNl s = some (line, rest))
    (h2 : (pstrip line).length ≠ 0) (h3 : parse (pstrip line) = some j) :
    linesResult parse s = .ok (j, rest) := by
  rw [linesResult]
  split
  · rename_i line2 rest2 heq
    rw [h] at heq
    cases heq
    rw [if_pos h2, h3]
  · rename_i heq
    rw [h] at heq
    cases heq

theorem linesResult_of_none {parse : List Char → Option Json} {s : List Char}
    (h : splitAtNl s = none) :
    linesResult parse s = .error .timeout := by
  rw [linesResult]
  split
  · rename_i line2 rest2 heq
    rw [h] at heq
    cases heq
  · rfl

/-- Relates the buffer scan to the canonical line extraction: a scan that
finds a line determines `linesResult` on any extension of the buffer, and a
scan that finds none leaves `linesResult` timing out on the bare buffer. -/
theorem scanBuffer_linesResult (parse : List Char → Option Json) :
    ∀ s : List Char,
      (∀ j rest, scanBuffer parse s = some (.ok (j, rest)) →
        ∀ t, linesResult parse (s ++ t) = .ok (j, rest ++ t)) ∧
      (∀ e, scanBuffer parse s = some (.error e) →
        ∀ t, linesResult parse (s ++ t) = .error e) ∧
      (scanBuffer parse s = none → linesResult parse s = .error .timeout) := by
  intro s
  induction s using scanBuffer.induct parse with
  | case1 s line rest0 h hne =>
    rcases hp : parse (pstrip line) with _ | j0
    · have hsc : scanBuffer parse s = some (.error .decodeFailure) := by
        rw [scanBuffer]
        split
        · rename_i line2 rest2 heq
          rw [h] at heq
          cases heq
          rw [if_pos hne, hp]
        · rename_i heq
          rw [h] at heq
          cases heq
      refine ⟨?_, ?_, ?_⟩
      · intro j rest hj t
        rw [hsc] at hj
        cases hj
      · intro e he t
        rw [hsc] at he
        cases he
        rw [linesResult]
        split
        · rename_i line2 rest2 heq
          rw [splitAtNl_some_append h t] at heq
          cases heq
          rw [if_pos hne, hp]
        · rename_i heq
          rw [splitAtNl_some_append h t] at heq
          cases heq
      · intro hn
        rw [hsc] at hn
        cases hn
    · have hsc : scanBuffer parse s = some (.ok (j0, rest0)) := by
        rw [scanBuffer]
        split
        · rename_i line2 rest2 heq
          rw [h] at heq
          cases heq
          rw [if_pos hne, hp]
        · rename_i heq
          rw [h] at heq
          cases heq
      refine ⟨?_, ?_, ?_⟩
      · intro j rest hj t
        rw [hsc] at hj
        cases hj
        exact linesResult_of_some (splitAtNl_some_append h t) hne hp
      · intro e he
        rw [hsc] at he
        cases he
      · intro hn
        rw [hsc] at hn
        cases hn
  | case2 s line rest0 h hne ih =>
    have hsc : scanBuffer parse s = scanBuffer parse rest0 := by
      rw [scanBuffer]
      split
      · rename_i line2 rest2 heq
        rw [h] at heq
        cases heq
        rw [if_neg hne]
      · rename_i heq
        rw [h] at heq
        cases heq
    have hlr : ∀ t, linesResult parse (s ++ t) = linesResult parse (rest0 ++ t) := by
      intro t
      rw [linesResult]
      split
      · rename_i line2 rest2 heq
        rw [splitAtNl_some_append h t] at heq
        cases heq
        rw [if_neg hne]
      · rename_i heq
        rw [splitAtNl_some_append h t] at heq
        cases heq
    refine ⟨?_, ?_, ?_⟩
    · intro j rest hj t
      rw [hlr t]
      exact ih.1 j rest (by rw [← hsc]; exact hj) t
    · intro e he t
      rw [hlr t]
      exact ih.2.1 e (by rw [← hsc]; exact he) t
    · intro hn
      have := hlr []
      simp only [List.append_nil] at this
      rw [this]
      exact ih.2.2 (by rw [← hsc]; exact hn)
  | case3 s h =>
    have hsc : scanBuffer parse s = none := by
      rw [scanBuffer]
      split
      · rename_i line2 rest2 heq
        rw [h] at heq
        cases heq
      · rfl
    refine ⟨?_, ?_, ?_⟩
    · intro j rest hj t
      rw [hsc] at hj
      cases hj
    · intro e he t
      rw [hsc] at he
      cases he
    · intro _
      exact linesResult_of_none h

/-- The receive loop refines the canonical line extraction on the flattened
byte stream: provided no read returns empty (which would mean the peer
closed the connection), the outcome — and the leftover data, once the
buffer/undelivered split is forgotten — depends only on the concatenation
of the buffer and the incoming chunks, not on how the stream is cut into
reads. -/
theorem flattenRes_receive (parse : List Char → Option Json) :
    ∀ (chunks : List (List Char)) (buf : List Char),
      (∀ ch ∈ chunks, ch ≠ []) →
      flattenRes (receive_full_response parse buf chunks) =
        linesResult parse (buf ++ chunks.flatten) := by
  intro chunks
  induction chunks with
  | nil =>
    intro buf _
    rw [receive_full_response]
    simp only [List.flatten_nil, List.append_nil]
    rcases hsc : scanBuffer parse buf with _ | r
    · rw [(scanBuffer_linesResult parse buf).2.2 hsc]
      rfl
    · rcases r with e | ⟨j, rest⟩
      · have := (scanBuffer_linesResult parse buf).2.1 e hsc []
        simp only [List.append_nil] at this
        rw [this]
        rfl
      · have := (scanBuffer_linesResult parse buf).1 j rest hsc []
        simp only [List.append_nil] at this
        rw [this]
        simp [flattenRes]
  | cons ch more ih =>
    intro buf hch
    rw [receive_full_response]
    rcases hsc : scanBuffer parse buf with _ | r
    · have hlen : ¬ ch.length = 0 := by
        simpa using (hch ch (List.mem_cons_self ch more))
      rw [if_neg hlen]
      have := ih (buf ++ ch) (fun x hx => hch x (List.mem_cons_of_mem ch hx))
      rw [this]
      simp [List.append_assoc]
    · rcases r with e | ⟨j, rest⟩
      · rw [(scanBuffer_linesResult parse buf).2.1 e hsc (ch :: more).flatten]
        rfl
      · rw [(scanBuffer_linesResult parse buf).1 j rest hsc (ch :: more).flatten]
        rfl

/-- C5: `receive_full_response` extracts exactly one complete
newline-terminated line per call.  First conjunct: it returns the JSON
parse of the first complete (nonempty after stripping) line of the data the
socket will deliver, and defers exactly the bytes after that line's newline
— split between the retained buffer and the unread chunks — for the next
call.  Second conjunct: while no complete line has arrived, nothing is
returned (the call times out waiting for more bytes, keeping the partial
line buffered).  Third conjunct: the outcome and the deferred data are the
same for every way the incoming byte stream is split into socket reads. -/
theorem receive_full_response_line_extraction :
    ∀ (parse : List Char → Option Json) (buf : List Char)
      (chunks : List (List Char)),
      (∀ ch ∈ chunks, ch ≠ []) →
      (∀ line rest j, splitAtNl (buf ++ chunks.flatten) = some (line, rest) →
        (pstrip line).length ≠ 0 → parse (pstrip line) = some j →
        ∃ b2 ch2, receive_full_response parse buf chunks = .ok (j, b2, ch2) ∧
          b2 ++ ch2.flatten = rest) ∧
      (splitAtNl (buf ++ chunks.flatten) = none →
        receive_full_response parse buf chunks = .error .timeout) ∧
      (∀ chunks2, (∀ ch ∈ chunks2, ch ≠ []) →
        chunks.flatten = chunks2.flatten →
        flattenRes (receive_full_response parse buf chunks) =
          flattenRes (receive_full_response parse buf chunks2)) := by
  intro parse buf chunks hch
  refine ⟨?_, ?_, ?_⟩
  · intro line rest j hsp hne hp
    have h := flattenRes_receive parse chunks buf hch
    rw [linesResult_of_some hsp hne hp] at h
    rcases hr : receive_full_response parse buf chunks with e | ⟨j2, b2, ch2⟩
    · rw [hr] at h
      cases h
    · rw [hr] at h
      simp only [flattenRes, Except.ok.injEq, Prod.mk.injEq] at h
      exact ⟨b2, ch2, by rw [h.1], h.2⟩
  · intro hsp
    have h := flattenRes_receive parse chunks buf hch
    rw [linesResult_of_none hsp] at h
    rcases hr : receive_full_response parse buf chunks with e | ⟨j2, b2, ch2⟩
    · rw [hr] at h
      simp only [flattenRes, Except.error.injEq] at h
      rw [h]
    · rw [hr] at h
      cases h
  · intro chunks2 hch2 hflat
    rw [flattenRes_receive parse chunks buf hch,
      flattenRes_receive parse chunks2 buf hch2, hflat]

/-- Witness for C5: buffer `"ab"` plus a read delivering `"\nc"` yields the
parse of the line `"ab"` and defers `"c"`. -/
theorem receive_full_response_line_extraction_witness :
    ∃ b2 ch2,
      receive_full_response (fun l => some (Json.str (String.mk l)))
          ['a', 'b'] [['\n', 'c']]
        = .ok (Json.str (String.mk ['a', 'b']), b2, ch2) ∧
      b2 ++ ch2.flatten = ['c'] := by
  exact (receive_full_response_line_extraction
      (fun l => some (Json.str (String.mk l))) ['a', 'b'] [['\n', 'c']]
      (by simp)).1 ['a', 'b'] ['c'] (Json.str (String.mk ['a', 'b']))
    (by decide) (by decide) rfl

/-! ## Helper lemmas for chunk reassembly -/

theorem insertChunk_same (m : Nat → Option String) (i : Nat) (s : String) :
    insertChunk m i s i = some s := by
  simp [insertChunk]

theorem insertChunk_other {m : Nat → Option String} {i j : Nat} (s : String)
    (h : j ≠ i) : insertChunk m i s j = m j := by
  simp [insertChunk, h]

theorem chunksComplete_iff {N : Nat} {m : Nat → Option String} :
    chunksComplete N m = true ↔ ∀ i < N, (m i).isSome := by
  simp [chunksComplete, List.all_eq_true, List.mem_range]

theorem chunksComplete_false_of {N j : Nat} {m : Nat → Option String}
    (hj : j < N) (hm : m j = none) : chunksComplete N m = false := by
  rcases hb : chunksComplete N m with _ | _
  · rfl
  · have := chunksComplete_iff.mp hb j hj
    rw [hm] at this
    cases this

theorem assembleChunks_congr (b64 : String → String)
    (parse : String → Option Json) (N : Nat) (m : Nat → Option String)
    (d : Nat → String) (h : ∀ i < N, m i = some (d i)) :
    assembleChunks b64 parse N m =
      parse (String.join ((List.range N).map (fun i => b64 (d i)))) := by
  unfold assembleChunks
  congr 2
  apply List.map_congr_left
  intro i hi
  rw [h i (List.mem_range.mp hi)]
  rfl

/-- The invariant run of `reassembleLoop`: if every buffered or arriving
slice agrees with the index-to-data map `d`, and every index below `N` is
either already buffered or still to arrive, the loop finishes exactly at
completeness and produces the canonical concatenation of the `N` decoded
slices in index order. -/
theorem reassembleLoop_eq (b64 : String → String) (parse : String → Option Json)
    (N : Nat) (d : Nat → String) :
    ∀ (l : List Chunk) (m : Nat → Option String),
      (∀ ck ∈ l, ck.c < N ∧ ck.d = d ck.c) →
      (∀ i, (m i).isSome → i < N ∧ m i = some (d i)) →
      (∀ i < N, (∃ ck ∈ l, ck.c = i) ∨ m i = some (d i)) →
      chunksComplete N m = false →
      reassembleLoop b64 parse N m l =
        parse (String.join ((List.range N).map (fun i => b64 (d i)))) := by
  intro l
  induction l with
  | nil =>
    intro m _ _ hcov hfalse
    exfalso
    have : chunksComplete N m = true := by
      apply chunksComplete_iff.mpr
      intro i hi
      rcases hcov i hi with ⟨ck, hck, _⟩ | hm
      · cases hck
      · rw [hm]; rfl
    rw [this] at hfalse
    cases hfalse
  | cons ck rest ih =>
    intro m hl hinv hcov hfalse
    have hckN : ck.c < N := (hl ck (List.mem_cons_self ck rest)).1
    have hckd : ck.d = d ck.c := (hl ck (List.mem_cons_self ck rest)).2
    have hinv' : ∀ i, ((insertChunk m ck.c ck.d) i).isSome →
        i < N ∧ (insertChunk m ck.c ck.d) i = some (d i) := by
      intro i hi
      by_cases hie : i = ck.c
      · subst hie
        rw [insertChunk_same]
        exact ⟨hckN, by rw [hckd]⟩
      · rw [insertChunk_other ck.d hie] at hi ⊢
        exact hinv i hi
    rw [reassembleLoop]
    by_cases hcomp : chunksComplete N (insertChunk m ck.c ck.d) = true
    · rw [if_pos hcomp]
      apply assembleChunks_congr
      intro i hi
      exact (hinv' i (chunksComplete_iff.mp hcomp i hi)).2
    · rw [if_neg hcomp]
      apply ih (insertChunk m ck.c ck.d)
        (fun x hx => hl x (List.mem_cons_of_mem ck hx)) hinv'
      · intro i hiN
        rcases hcov i hiN with ⟨ck2, hck2, hc2⟩ | hm
        · rcases List.mem_cons.mp hck2 with rfl | h2
          · right
            rw [← hc2, insertChunk_same, hckd]
          · exact Or.inl ⟨ck2, h2, hc2⟩
        · right
          by_cases hie : i = ck.c
          · subst hie
            rw [insertChunk_same, hckd]
          · rw [insertChunk_other ck.d hie]
            exact hm
      · simpa using hcomp

/-- A loop over arrivals that all miss index `j < N` never completes. -/
theorem reassembleLoop_missing (b64 : String → String)
    (parse : String → Option Json) (N j : Nat) (hj : j < N) :
    ∀ (l : List Chunk) (m : Nat → Option String),
      (∀ ck ∈ l, ck.c ≠ j) → m j = none →
      reassembleLoop b64 parse N m l = none := by
  intro l
  induction l with
  | nil => intro m _ _; rfl
  | cons ck rest ih =>
    intro m hl hm
    have hj2 : (insertChunk m ck.c ck.d) j = none := by
      rw [insertChunk_other ck.d
        (Ne.symm (hl ck (List.mem_cons_self ck rest)))]
      exact hm
    rw [reassembleLoop,
      if_neg (by simp [chunksComplete_false_of hj hj2]),
      ih (insertChunk m ck.c ck.d)
        (fun x hx => hl x (List.mem_cons_of_mem ck hx)) hj2]

/-- Complete delivery reassembles to the canonical payload: the parse of the
concatenation of the `N` independently decoded slices in index order,
independent of the order the chunks arrived in. -/
theorem reassemble_canonical (b64 : String → String)
    (parse : String → Option Json) (N : Nat) (d : Nat → String)
    (first : Chunk) (arrivals : List Chunk)
    (hT : first.t = N) (hN : 1 < N)
    (hall : ∀ ck ∈ first :: arrivals, ck.c < N ∧ ck.d = d ck.c)
    (hcov : ∀ i < N, ∃ ck ∈ first :: arrivals, ck.c = i) :
    reassemble_chunked_response b64 parse first arrivals =
      parse (String.join ((List.range N).map (fun i => b64 (d i)))) := by
  have hfirstN : first.c < N := (hall first (List.mem_cons_self first arrivals)).1
  have hfirstd : first.d = d first.c := (hall first (List.mem_cons_self first arrivals)).2
  unfold reassemble_chunked_response
  rw [hT, if_neg (by omega)]
  have hinv0 : ∀ i, ((insertChunk (fun _ => none) first.c first.d) i).isSome →
      i < N ∧ (insertChunk (fun _ => none) first.c first.d) i = some (d i) := by
    intro i hi
    by_cases hie : i = first.c
    · subst hie
      rw [insertChunk_same]
      exact ⟨hfirstN, by rw [hfirstd]⟩
    · rw [insertChunk_other first.d hie] at hi
      cases hi
  have hmiss : ∃ j, j < N ∧ (insertChunk (fun _ => none) first.c first.d) j = none := by
    by_cases h0 : first.c = 0
    · exact ⟨1, by omega, by rw [insertChunk_other first.d (by omega)]⟩
    · exact ⟨0, by omega, by rw [insertChunk_other first.d (fun h => h0 h.symm)]⟩
  rcases hmiss with ⟨j, hjN, hjnone⟩
  have hfalse := chunksComplete_false_of hjN hjnone
  rw [if_neg (by simp [hfalse])]
  apply reassembleLoop_eq b64 parse N d arrivals
    (insertChunk (fun _ => none) first.c first.d)
    (fun x hx => hall x (List.mem_cons_of_mem first hx)) hinv0
  · intro i hiN
    rcases hcov i hiN with ⟨ck2, hck2, hc2⟩
    rcases List.mem_cons.mp hck2 with rfl | h2
    · right
      rw [← hc2, insertChunk_same, hfirstd]
    · exact Or.inl ⟨ck2, h2, hc2⟩
  · exact hfalse

/-- C3: chunk reassembly is order-independent.  For a response split into
`N > 1` chunks tagged with index `_c` and total `_t`, whose slices agree
with an index-to-data map `d`: (1) once every index `0 .. N-1` has been
seen at least once, the result is the parse of the concatenation of the `N`
independently decoded slices in index order — a value that does not depend
on arrival order; (2) while some index is missing, reassembly is never
attempted (the receiver keeps buffering and produces nothing); (3) hence
any two arrival orders covering all indices reconstruct the identical
payload. -/
theorem reassemble_order_independent :
    ∀ (b64 : String → String) (parse : String → Option Json) (N : Nat)
      (d : Nat → String) (first : Chunk) (arrivals : List Chunk),
      first.t = N → 1 < N →
      (∀ ck ∈ first :: arrivals, ck.c < N ∧ ck.d = d ck.c) →
      ((∀ i < N, ∃ ck ∈ first :: arrivals, ck.c = i) →
        reassemble_chunked_response b64 parse first arrivals =
          parse (String.join ((List.range N).map (fun i => b64 (d i))))) ∧
      ((∃ j, j < N ∧ ∀ ck ∈ first :: arrivals, ck.c ≠ j) →
        reassemble_chunked_response b64 parse first arrivals = none) ∧
      (∀ arrivals2,
        (∀ ck ∈ first :: arrivals2, ck.c < N ∧ ck.d = d ck.c) →
        (∀ i < N, ∃ ck ∈ first :: arrivals, ck.c = i) →
        (∀ i < N, ∃ ck ∈ first :: arrivals2, ck.c = i) →
        reassemble_chunked_response b64 parse first arrivals =
          reassemble_chunked_response b64 parse first arrivals2) := by
  intro b64 parse N d first arrivals hT hN hall
  refine ⟨?_, ?_, ?_⟩
  · intro hcov
    exact reassemble_canonical b64 parse N d first arrivals hT hN hall hcov
  · rintro ⟨j, hjN, hnot⟩
    have hfirstne : first.c ≠ j := hnot first (List.mem_cons_self first arrivals)
    unfold reassemble_chunked_response
    rw [hT, if_neg (by omega)]
    have hm0 : (insertChunk (fun _ => none) first.c first.d) j = none := by
      rw [insertChunk_other first.d (Ne.symm hfirstne)]
    have hfalse := chunksComplete_false_of hjN hm0
    rw [if_neg (by simp [hfalse])]
    exact reassembleLoop_missing b64 parse N j hjN arrivals
      (insertChunk (fun _ => none) first.c first.d)
      (fun x hx => hnot x (List.mem_cons_of_mem first hx)) hm0
  · intro arrivals2 hall2 hcov hcov2
    rw [reassemble_canonical b64 parse N d first arrivals hT hN hall hcov,
      reassemble_canonical b64 parse N d first arrivals2 hT hN hall2 hcov2]

/-- Witness for C3: a 3-chunk response delivered out of order
(2 first, then 0, then 1) reconstructs the slices in index order. -/
theorem reassemble_order_independent_witness :
    reassemble_chunked_response (fun s => s) (fun s => some (Json.str s))
        ⟨2, 3, "cc"⟩ [⟨0, 3, "aa"⟩, ⟨1, 3, "bb"⟩] =
      some (Json.str (String.join ["aa", "bb", "cc"])) := by
  have h := (reassemble_order_independent (fun s => s)
      (fun s => some (Json.str s)) 3
      (fun i => if i = 0 then "aa" else if i = 1 then "bb" else "cc")
      ⟨2, 3, "cc"⟩ [⟨0, 3, "aa"⟩, ⟨1, 3, "bb"⟩] rfl (by omega)
      (by decide)).1 (by decide)
  rw [h]
  rfl

/-! ## Helper lemmas for the OSC framing -/

theorem padNulCount_pos (n : Nat) : 0 < padNulCount n := by
  unfold padNulCount
  omega

theorem oscPadString_length (s : List Nat) :
    (oscPadString s).length = s.length + padNulCount s.length := by
  simp [oscPadString]

theorem oscPadString_length_mod (s : List Nat) :
    (oscPadString s).length % 4 = 0 := by
  rw [oscPadString_length]
  unfold padNulCount
  omega

theorem takeWhile_pad (s : List Nat) (hs : 0 ∉ s) (k : Nat) (hk : 0 < k)
    (t : List Nat) :
    ((s ++ (List.replicate k 0 ++ t)).takeWhile (fun b => b != 0)) = s := by
  induction s with
  | nil =>
    rcases k with _ | k2
    · omega
    · simp [List.replicate_succ, List.takeWhile_cons]
  | cons a s2 ih =>
    have ha : a ≠ 0 := fun h => hs (h ▸ List.mem_cons_self a s2)
    simp only [List.cons_append, List.takeWhile_cons]
    rw [if_pos (by simpa using ha)]
    rw [ih (fun h => hs (List.mem_cons_of_mem a h))]

theorem readOscString_pad (s t : List Nat) (hs : 0 ∉ s) :
    readOscString (oscPadString s ++ t) = some (s, t) := by
  have hk := padNulCount_pos s.length
  have htw : (oscPadString s ++ t).takeWhile (fun b => b != 0) = s := by
    rw [oscPadString, List.append_assoc]
    exact takeWhile_pad s hs _ hk t
  have hlen : (oscPadString s ++ t).length
      = s.length + padNulCount s.length + t.length := by
    simp [oscPadString_length]
  have hdrop1 : (oscPadString s ++ t).drop s.length
      = List.replicate (padNulCount s.length) 0 ++ t := by
    rw [oscPadString, List.append_assoc]
    exact List.drop_left s _
  have hdrop2 : (oscPadString s ++ t).drop (s.length + padNulCount s.length)
      = t := by
    rw [oscPadString]
    exact List.drop_left' (by simp)
  simp only [readOscString, htw]
  rw [if_pos]
  · rw [hdrop2]
  · refine ⟨?_, ?_, ?_⟩
    · rw [hlen]; omega
    · rw [hlen]; omega
    · rw [hdrop1, List.take_left' (by simp)]

theorem readBe32_be32 (v : Nat) (hv : v < 4294967296) (t : List Nat) :
    readBe32 (be32 v ++ t) = some (v, t) := by
  simp only [be32, List.cons_append, List.nil_append, readBe32,
    Option.some.injEq, Prod.mk.injEq]
  exact ⟨by omega, trivial⟩

theorem int32bits_lt (v : Int) : int32bits v < 4294967296 := by
  unfold int32bits
  omega

theorem bitsToInt32_int32bits (v : Int) (h1 : -2147483648 ≤ v)
    (h2 : v < 2147483648) : bitsToInt32 (int32bits v) = v := by
  simp only [bitsToInt32, int32bits]
  split <;> omega

theorem encodeArg_length_mod (a : OscArg) : (encodeArg a).length % 4 = 0 := by
  cases a with
  | s bytes => exact oscPadString_length_mod bytes
  | i v => simp [encodeArg, be32]
  | f bits => simp [encodeArg, be32]

theorem flatten_length_mod (l : List (List Nat))
    (h : ∀ x ∈ l, x.length % 4 = 0) : l.flatten.length % 4 = 0 := by
  induction l with
  | nil => rfl
  | cons x xs ih =>
    simp only [List.flatten_cons, List.length_append]
    have h1 := h x (List.mem_cons_self x xs)
    have h2 := ih (fun y hy => h y (List.mem_cons_of_mem x hy))
    omega

theorem readArgs_encode :
    ∀ (args : List OscArg) (t : List Nat), (∀ a ∈ args, oscArgWF a) →
      readArgs (args.map tagOf) ((args.map encodeArg).flatten ++ t)
        = some (args, t) := by
  intro args
  induction args with
  | nil => intro t _; rfl
  | cons a args2 ih =>
    intro t hwf
    have hwa := hwf a (List.mem_cons_self a args2)
    have hrest := ih t (fun x hx => hwf x (List.mem_cons_of_mem a hx))
    cases a with
    | s bytes =>
      simp only [List.map_cons, List.flatten_cons, tagOf, encodeArg, readArgs,
        List.append_assoc]
      rw [readOscString_pad bytes _ hwa]
      simp [hrest]
    | i v =>
      simp only [List.map_cons, List.flatten_cons, tagOf, encodeArg, readArgs,
        List.append_assoc]
      rw [readBe32_be32 (int32bits v) (int32bits_lt v) _]
      simp [hrest, bitsToInt32_int32bits v hwa.1 hwa.2]
    | f bits =>
      simp only [List.map_cons, List.flatten_cons, tagOf, encodeArg, readArgs,
        List.append_assoc]
      rw [Nat.mod_eq_of_lt hwa, readBe32_be32 bits hwa _]
      simp [hrest]

theorem tagBytes_no_nul (args : List OscArg) : 0 ∉ 44 :: args.map tagOf := by
  intro h
  rcases List.mem_cons.mp h with h1 | h2
  · cases h1
  · rcases List.mem_map.mp h2 with ⟨a, _, ha⟩
    cases a <;> simp [tagOf] at ha

/-- C4: control-message (OSC) encoding round-trips and is aligned.  For
every address and every list of well-formed string/int/float arguments,
decoding the encoded message reproduces the original address and argument
values exactly, and the encoded message's byte length is a multiple of 4. -/
theorem osc_roundtrip_aligned :
    ∀ (address : List Nat) (args : List OscArg),
      0 ∉ address → (∀ a ∈ args, oscArgWF a) →
      decode_osc_message (build_osc_message address args)
          = some (address, args) ∧
      (build_osc_message address args).length % 4 = 0 := by
  intro address args haddr hwf
  constructor
  · unfold build_osc_message decode_osc_message
    rw [List.append_assoc, readOscString_pad address _ haddr]
    have h := readArgs_encode args [] hwf
    rw [List.append_nil] at h
    simp [readOscString_pad _ _ (tagBytes_no_nul args), h]
  · unfold build_osc_message
    simp only [List.length_append]
    have h1 := oscPadString_length_mod address
    have h2 := oscPadString_length_mod (44 :: args.map tagOf)
    have h3 := flatten_length_mod (args.map encodeArg) (by
      intro x hx
      rcases List.mem_map.mp hx with ⟨a, _, ha⟩
      rw [← ha]
      exact encodeArg_length_mod a)
    omega

/-- Witness for C4: the message `/p` with a string, an int and a float
argument decodes back exactly and is 4-byte aligned. -/
theorem osc_roundtrip_aligned_witness :
    decode_osc_message (build_osc_message [47, 112]
        [OscArg.s [116], OscArg.i 42, OscArg.f 1065353216])
      = some ([47, 112], [OscArg.s [116], OscArg.i 42, OscArg.f 1065353216]) ∧
    (build_osc_message [47, 112]
        [OscArg.s [116], OscArg.i 42, OscArg.f 1065353216]).length % 4 = 0 := by
  exact osc_roundtrip_aligned [47, 112]
    [OscArg.s [116], OscArg.i 42, OscArg.f 1065353216]
    (by decide) (by
      intro a ha
      simp only [List.mem_cons, List.not_mem_nil, or_false] at ha
      rcases ha with rfl | rfl | rfl
      · show 0 ∉ [116]
        decide
      · show -2147483648 ≤ (42 : Int) ∧ (42 : Int) < 2147483648
        constructor <;> decide
      · show 1065353216 < 4294967296
        decide)

end AbletonBridge
